import Mathlib

/-!
# SuperTux `ScreenManager`: screen stack reconciliation and frame pacing

A shallow embedding of `src/supertux/screen_manager.cpp`, with `TileMap::resize` and
`TileMap::get_tile_id` of `src/object/tilemap.cpp` and the control arrays of
`src/control/controller.cpp`.

* Screens are owned through `std::unique_ptr<Screen>`; only their identity matters to the
  manager, so a screen is its address (`Screen := Nat`) and a null pointer is `none`.
* `Screen::setup()` and `Screen::leave()` are virtual: they are a parameter (`Callbacks`)
  giving the calls the screen makes back into the manager.
* A ghost field `trace` records every `setup()`, `leave()` and `wakeup_screenswitch()` call.
* `Uint32` values are natural numbers reduced modulo `2^32`.
-/

namespace SuperTux

/-! ## Data model -/

/-- Identity of a `Screen` object: the address a `std::unique_ptr<Screen>` holds. -/
abbrev Screen := Nat

/-- A `ScreenFade` as the manager sees it: an identity and the answer of `done()`. -/
structure ScreenFade where
  ident : Nat
  done : Bool
deriving DecidableEq, Repr

/-- The enum `Action::Type`. -/
inductive ActionType where
  | PUSH_ACTION
  | POP_ACTION
  | QUIT_ACTION
deriving DecidableEq, Repr

/-- Modelled from the spec: `struct Action` is declared in `screen_manager.hpp`, which is
not among the sources. It is read off its uses in `screen_manager.cpp`
(`m_actions.emplace_back(Action::PUSH_ACTION, std::move(screen))`,
`m_actions.emplace_back(Action::POP_ACTION)`, `action.type`, `action.screen`): a type tag
and an owning screen pointer that is null for Pop and Quit. -/
structure Action where
  type : ActionType
  screen : Option Screen
deriving DecidableEq, Repr

/-- Calls observed on the collaborators of the manager (ghost state). -/
inductive Event where
  | setup (s : Screen)
  | leave (s : Screen)
  | wakeup_screenswitch
deriving DecidableEq, Repr

/-- The ways `handle_screen_switch` can fail to return normally. -/
inductive Failure where
  /-- Failed `assert(!m_screen_stack.empty())` at `POP_ACTION`. -/
  | assert_stack_not_empty
  /-- Failed `assert(screen)` or `assert(action.screen)`. -/
  | assert_screen
  /-- Evaluation of `m_screen_stack.back()` on an empty vector (undefined behaviour). -/
  | back_of_empty_stack
  /-- The model ran out of fuel before `m_actions` was empty. -/
  | out_of_fuel
deriving DecidableEq, Repr

/-- The members of `ScreenManager` that reconciliation reads or writes, the configuration
flag `g_config->transitions_enabled`, and the ghost `trace`. `m_speed` is a `float` that is
only stored and read back, never computed with; it is kept as a rational. -/
structure ScreenManager where
  m_speed : Rat
  m_actions : List Action
  m_screen_fade : Option ScreenFade
  m_screen_stack : List Screen
  transitions_enabled : Bool
  trace : List Event
deriving DecidableEq, Repr

/-- Member initialisers of the constructor: speed `1.0`, no action, no fade, no screen. -/
def ScreenManager.create (transitions_enabled : Bool) : ScreenManager :=
  { m_speed := 1, m_actions := [], m_screen_fade := none, m_screen_stack := [],
    transitions_enabled := transitions_enabled, trace := [] }

/-! ## Enqueueing (`push_screen`, `pop_screen`, `set_screen_fade`, `quit`, `set_speed`) -/

/-- The fade assignment shared by the enqueue functions:
`if (g_config->transitions_enabled) m_screen_fade = std::move(screen_fade);`. -/
def move_fade (m : ScreenManager) (screen_fade : Option ScreenFade) : Option ScreenFade :=
  if m.transitions_enabled then screen_fade else m.m_screen_fade

/-- Body of `push_screen` after `assert(screen)` has passed. -/
def enqueue_push (m : ScreenManager) (screen : Screen) (screen_fade : Option ScreenFade) :
    ScreenManager :=
  { m with m_screen_fade := move_fade m screen_fade,
           m_actions := m.m_actions ++ [⟨ActionType.PUSH_ACTION, some screen⟩] }

/-- The function `ScreenManager::push_screen`. -/
def push_screen (m : ScreenManager) (screen : Option Screen) (screen_fade : Option ScreenFade) :
    Except Failure ScreenManager :=
  match screen with
  | none => Except.error Failure.assert_screen
  | some s => Except.ok (enqueue_push m s screen_fade)

/-- The function `ScreenManager::pop_screen`. -/
def pop_screen (m : ScreenManager) (screen_fade : Option ScreenFade) : ScreenManager :=
  { m with m_screen_fade := move_fade m screen_fade,
           m_actions := m.m_actions ++ [⟨ActionType.POP_ACTION, none⟩] }

/-- The function `ScreenManager::set_screen_fade`. -/
def set_screen_fade (m : ScreenManager) (screen_fade : Option ScreenFade) : ScreenManager :=
  { m with m_screen_fade := move_fade m screen_fade }

/-- The function `ScreenManager::quit`. -/
def quit (m : ScreenManager) (screen_fade : Option ScreenFade) : ScreenManager :=
  { m with m_screen_fade := move_fade m screen_fade,
           m_actions := m.m_actions ++ [⟨ActionType.QUIT_ACTION, none⟩] }

/-- The function `ScreenManager::set_speed`. -/
def set_speed (m : ScreenManager) (speed : Rat) : ScreenManager :=
  { m with m_speed := speed }

/-- The function `ScreenManager::get_speed`. -/
def get_speed (m : ScreenManager) : Rat :=
  m.m_speed

/-! ## Screen callbacks -/

/-- A call a screen makes into the manager from inside `setup()` or `leave()`. A screen
that pushes passes a non-null screen (a null one is the `assert(screen)` failure that
`push_screen` models). -/
inductive Call where
  | push_screen (screen : Screen) (screen_fade : Option ScreenFade)
  | pop_screen (screen_fade : Option ScreenFade)
  | set_screen_fade (screen_fade : Option ScreenFade)
  | quit (screen_fade : Option ScreenFade)
  | set_speed (speed : Rat)
deriving DecidableEq, Repr

/-- Effect of one call on the manager. -/
def perform (m : ScreenManager) : Call → ScreenManager
  | Call.push_screen s f => enqueue_push m s f
  | Call.pop_screen f => pop_screen m f
  | Call.set_screen_fade f => set_screen_fade m f
  | Call.quit f => quit m f
  | Call.set_speed v => set_speed m v

/-- The virtual methods `Screen::setup()` and `Screen::leave()`: for each screen and each
manager state at the time of the call, the calls the method makes into the manager. -/
structure Callbacks where
  setup : Screen → ScreenManager → List Call
  leave : Screen → ScreenManager → List Call

/-- Screens whose `setup()` and `leave()` never call back into the manager. -/
def Callbacks.quiet : Callbacks :=
  { setup := fun _ _ => [], leave := fun _ _ => [] }

/-- The call `s->leave()`: recorded in the trace, then the screen's own calls run. -/
def call_leave (env : Callbacks) (s : Screen) (m : ScreenManager) : ScreenManager :=
  let m1 := { m with trace := m.trace ++ [Event.leave s] }
  (env.leave s m1).foldl perform m1

/-- The call `s->setup()`: recorded in the trace, then the screen's own calls run. -/
def call_setup (env : Callbacks) (s : Screen) (m : ScreenManager) : ScreenManager :=
  let m1 := { m with trace := m.trace ++ [Event.setup s] }
  (env.setup s m1).foldl perform m1

/-! ## `handle_screen_switch` -/

/-- The function `ScreenManager::has_pending_fadeout`:
`m_screen_fade && !m_screen_fade->done()`. -/
def has_pending_fadeout (m : ScreenManager) : Bool :=
  match m.m_screen_fade with
  | none => false
  | some f => !f.done

/-- The manager together with the locals of one pass of the `while` loop. -/
structure SwitchState where
  mgr : ScreenManager
  current_screen : Option Screen
  quit_action_triggered : Bool

/-- One iteration of `for (auto& action : actions)`: the `switch` on `action.type`. Each
case ends in `break`, which leaves the `switch` only; the `for` loop goes on. -/
def apply_action (env : Callbacks) (st : SwitchState) (action : Action) :
    Except Failure SwitchState :=
  match action.type with
  | ActionType.POP_ACTION =>
    match st.mgr.m_screen_stack.getLast? with
    | none => Except.error Failure.assert_stack_not_empty
    | some back =>
      let st1 : SwitchState :=
        if st.current_screen = some back then
          { st with mgr := call_leave env back st.mgr, current_screen := none }
        else st
      Except.ok { st1 with mgr := { st1.mgr with
        m_screen_stack := st1.mgr.m_screen_stack.dropLast } }
  | ActionType.PUSH_ACTION =>
    match action.screen with
    | none => Except.error Failure.assert_screen
    | some s =>
      Except.ok { st with mgr := { st.mgr with
        m_screen_stack := st.mgr.m_screen_stack ++ [s] } }
  | ActionType.QUIT_ACTION =>
    Except.ok { st with mgr := { st.mgr with m_screen_stack := [] },
                        current_screen := none,
                        quit_action_triggered := true }

/-- The whole `for (auto& action : actions)` loop. -/
def apply_actions (env : Callbacks) : SwitchState → List Action → Except Failure SwitchState
  | st, [] => Except.ok st
  | st, action :: rest =>
    match apply_action env st action with
    | Except.error e => Except.error e
    | Except.ok st1 => apply_actions env st1 rest

/-- The code after the `for` loop: `if (!quit_action_triggered) { ... }`. -/
def finish_batch (env : Callbacks) (st : SwitchState) : Except Failure ScreenManager :=
  if st.quit_action_triggered then Except.ok st.mgr
  else
    match st.mgr.m_screen_stack.getLast? with
    | none => Except.error Failure.back_of_empty_stack
    | some back =>
      if st.current_screen ≠ some back then
        let m1 :=
          match st.current_screen with
          | some c => call_leave env c st.mgr
          | none => st.mgr
        if !m1.m_screen_stack.isEmpty then
          let m2 := call_setup env back m1
          let m3 := { m2 with m_speed := 1 }
          Except.ok { m3 with trace := m3.trace ++ [Event.wakeup_screenswitch] }
        else Except.ok m1
      else Except.ok st.mgr

/-- The body of `while (!m_actions.empty())`: one batch. -/
def process_batch (env : Callbacks) (m : ScreenManager) : Except Failure ScreenManager :=
  let current_screen := m.m_screen_stack.getLast?
  let actions := m.m_actions
  let st : SwitchState :=
    { mgr := { m with m_actions := [] },
      current_screen := current_screen,
      quit_action_triggered := false }
  match apply_actions env st actions with
  | Except.error e => Except.error e
  | Except.ok st1 => finish_batch env st1

/-- The loop `while (!m_actions.empty())`; `fuel` bounds the number of batches. -/
def switch_loop (env : Callbacks) : Nat → ScreenManager → Except Failure ScreenManager
  | 0, m => if m.m_actions.isEmpty then Except.ok m else Except.error Failure.out_of_fuel
  | fuel + 1, m =>
    if m.m_actions.isEmpty then Except.ok m
    else
      match process_batch env m with
      | Except.error e => Except.error e
      | Except.ok m1 => switch_loop env fuel m1

/-- The function `ScreenManager::handle_screen_switch`. -/
def handle_screen_switch (env : Callbacks) (fuel : Nat) (m : ScreenManager) :
    Except Failure ScreenManager :=
  if has_pending_fadeout m then Except.ok m
  else switch_loop env fuel { m with m_screen_fade := none }

/-! ## Sequences of enqueue calls and reconciliations -/

/-- One step of a caller of the manager. -/
inductive Op where
  | push_screen (screen : Option Screen) (screen_fade : Option ScreenFade)
  | pop_screen (screen_fade : Option ScreenFade)
  | quit (screen_fade : Option ScreenFade)
  | set_speed (speed : Rat)
  | handle_screen_switch
deriving DecidableEq, Repr

/-- Run one caller step. -/
def step_op (env : Callbacks) (fuel : Nat) (m : ScreenManager) : Op →
    Except Failure ScreenManager
  | Op.push_screen s f => push_screen m s f
  | Op.pop_screen f => Except.ok (pop_screen m f)
  | Op.quit f => Except.ok (quit m f)
  | Op.set_speed v => Except.ok (set_speed m v)
  | Op.handle_screen_switch => handle_screen_switch env fuel m

/-- Run a sequence of caller steps, stopping at the first failure. -/
def run_ops (env : Callbacks) (fuel : Nat) : ScreenManager → List Op →
    Except Failure ScreenManager
  | m, [] => Except.ok m
  | m, op :: rest =>
    match step_op env fuel m op with
    | Except.error e => Except.error e
    | Except.ok m1 => run_ops env fuel m1 rest

/-! ## Reference semantics: the stack effect of a batch

A second, callback-free description of what a batch does to the stack, to compare
`apply_actions` with: every action is applied, first to last, and a Quit clears the stack
without ending the batch. `apply_actions_stack` and `apply_actions_of_stack_fold` show
that the `for` loop has exactly this stack effect. -/

/-- Stack effect of one action: Pop removes the back (and asserts there is one), Push
appends (and asserts the screen is not null), Quit clears. -/
def stack_step (stack : List Screen) (action : Action) : Except Failure (List Screen) :=
  match action.type with
  | ActionType.POP_ACTION =>
    if stack.isEmpty then Except.error Failure.assert_stack_not_empty
    else Except.ok stack.dropLast
  | ActionType.PUSH_ACTION =>
    match action.screen with
    | none => Except.error Failure.assert_screen
    | some s => Except.ok (stack ++ [s])
  | ActionType.QUIT_ACTION => Except.ok []

/-- Stack effect of a list of actions applied first to last (FIFO), every one of them. -/
def stack_fold : List Screen → List Action → Except Failure (List Screen)
  | stack, [] => Except.ok stack
  | stack, action :: rest =>
    match stack_step stack action with
    | Except.error e => Except.error e
    | Except.ok stack1 => stack_fold stack1 rest

/-! ## Frame pacing in `ScreenManager::run` -/

/-- Number of values of `Uint32`. -/
def UINT32 : Nat := 4294967296

/-- Addition of `Uint32` values. -/
def add32 (a b : Nat) : Nat := (a + b) % UINT32

/-- Subtraction of `Uint32` values. -/
def sub32 (a b : Nat) : Nat := (a + UINT32 - b % UINT32) % UINT32

/-- Multiplication of `Uint32` values. -/
def mul32 (a b : Nat) : Nat := (a * b) % UINT32

/-- The constant `MAX_FRAME_SKIP`. -/
def MAX_FRAME_SKIP : Nat := 2

/-- The loop `while (elapsed_ticks >= ticks_per_frame && frames < MAX_FRAME_SKIP)`,
returning the final `elapsed_ticks` and `frames`. Each pass adds one to `frames`, so
`MAX_FRAME_SKIP` passes are all the loop can make from `frames = 0`; the first argument
counts the passes left. -/
def simulation_steps (ticks_per_frame : Nat) : Nat → Nat → Nat → Nat × Nat
  | 0, elapsed_ticks, frames => (elapsed_ticks, frames)
  | fuel + 1, elapsed_ticks, frames =>
    if elapsed_ticks ≥ ticks_per_frame ∧ frames < MAX_FRAME_SKIP then
      simulation_steps ticks_per_frame fuel (sub32 elapsed_ticks ticks_per_frame) (frames + 1)
    else (elapsed_ticks, frames)

/-- What one iteration of the loop of `run` does with time. -/
structure FrameTiming where
  last_ticks : Nat
  elapsed_ticks : Nat
  /-- The argument of `SDL_Delay`, when it was called. -/
  delay_ticks : Option Nat
  /-- The number of simulation steps (`process_events` and `update_gamelogic` calls). -/
  frames : Nat
deriving DecidableEq, Repr

/-- The time keeping of one iteration of `while (!m_screen_stack.empty())` in
`ScreenManager::run`, from `Uint32 ticks = SDL_GetTicks()` to the end of the simulation
loop. `ticks` is the value `SDL_GetTicks()` returns and `ticks_per_frame` the value of the
`const Uint32` of that name (the result of a `float` computation). -/
def run_iteration (ticks_per_frame ticks last_ticks elapsed_ticks : Nat) : FrameTiming :=
  let elapsed_ticks := add32 elapsed_ticks (sub32 ticks last_ticks)
  let last_ticks := ticks
  let elapsed_ticks :=
    if elapsed_ticks > mul32 ticks_per_frame 4 then 0 else elapsed_ticks
  if elapsed_ticks < ticks_per_frame then
    let delay_ticks := sub32 ticks_per_frame elapsed_ticks
    let last_ticks := add32 last_ticks delay_ticks
    let elapsed_ticks := add32 elapsed_ticks delay_ticks
    let r := simulation_steps ticks_per_frame MAX_FRAME_SKIP elapsed_ticks 0
    { last_ticks := last_ticks, elapsed_ticks := r.1, delay_ticks := some delay_ticks,
      frames := r.2 }
  else
    let r := simulation_steps ticks_per_frame MAX_FRAME_SKIP elapsed_ticks 0
    { last_ticks := last_ticks, elapsed_ticks := r.1, delay_ticks := none, frames := r.2 }

/-! ## The loop of `ScreenManager::run`

`g_real_time` and `g_game_time` are `float` counters that nothing in `run` reads back; they
are left out. Everything `run` calls besides `handle_screen_switch` reaches the manager
through its public functions only, so it is a parameter (`World`) giving the calls made. -/

/-- The collaborators of `run`, indexed by the iteration `n` of the outer loop and the
simulation step `k` inside it. -/
structure World where
  /-- The value `SDL_GetTicks()` returns in iteration `n`. -/
  ticks : Nat → Nat
  /-- The value of `ticks_per_frame` computed in iteration `n`. -/
  ticks_per_frame : Nat → Nat
  /-- The calls made into the manager during `process_events()`: `quit()` on `SDL_QUIT`,
  and what the menus do with the events. -/
  process_events : Nat → Nat → ScreenManager → List Call
  /-- The calls made into the manager during `update_gamelogic()` by the scripts, the top
  screen and the menus. -/
  update_gamelogic : Nat → Nat → ScreenManager → List Call
  /-- The effect of `m_screen_fade->update(dt_sec)` on the fade. -/
  fade_update : Nat → Nat → ScreenFade → ScreenFade
  /-- The calls made into the manager while drawing. -/
  draw : Nat → ScreenManager → List Call

/-- The function `ScreenManager::process_events`, as far as the manager is concerned. -/
def process_events (w : World) (n k : Nat) (m : ScreenManager) : ScreenManager :=
  (w.process_events n k m).foldl perform m

/-- The function `ScreenManager::update_gamelogic`: the updates of the scripts, of the top
screen and of the menus, then `if (m_screen_fade) m_screen_fade->update(dt_sec)`. -/
def update_gamelogic (w : World) (n k : Nat) (m : ScreenManager) : ScreenManager :=
  let m1 := (w.update_gamelogic n k m).foldl perform m
  { m1 with m_screen_fade := m1.m_screen_fade.map (w.fade_update n k) }

/-- The function `ScreenManager::draw`, which starts with
`assert(!m_screen_stack.empty())`. -/
def draw (w : World) (n : Nat) (m : ScreenManager) : Except Failure ScreenManager :=
  if m.m_screen_stack.isEmpty then Except.error Failure.assert_stack_not_empty
  else Except.ok ((w.draw n m).foldl perform m)

/-- The loop `while (elapsed_ticks >= ticks_per_frame && frames < MAX_FRAME_SKIP)` with its
body: `elapsed_ticks -= ticks_per_frame`, `process_events()`, `update_gamelogic(timestep)`,
`frames += 1`. Returns the final `elapsed_ticks`, `frames` and manager. -/
def simulate (w : World) (n ticks_per_frame : Nat) :
    Nat → Nat → Nat → ScreenManager → Nat × Nat × ScreenManager
  | 0, elapsed_ticks, frames, m => (elapsed_ticks, frames, m)
  | fuel + 1, elapsed_ticks, frames, m =>
    if elapsed_ticks ≥ ticks_per_frame ∧ frames < MAX_FRAME_SKIP then
      simulate w n ticks_per_frame fuel (sub32 elapsed_ticks ticks_per_frame) (frames + 1)
        (update_gamelogic w n frames (process_events w n frames m))
    else (elapsed_ticks, frames, m)

/-- The manager and the locals `last_ticks` and `elapsed_ticks` of `run`. -/
structure RunState where
  mgr : ScreenManager
  last_ticks : Nat
  elapsed_ticks : Nat

/-- The body of `while (!m_screen_stack.empty())` up to, and without, the closing
`handle_screen_switch()`: time keeping, sleep, simulation steps and drawing. -/
def before_switch (w : World) (n : Nat) (st : RunState) : Except Failure RunState :=
  let ticks := w.ticks n % UINT32
  let elapsed_ticks := add32 st.elapsed_ticks (sub32 ticks st.last_ticks)
  let last_ticks := ticks
  let ticks_per_frame := w.ticks_per_frame n % UINT32
  let elapsed_ticks :=
    if elapsed_ticks > mul32 ticks_per_frame 4 then 0 else elapsed_ticks
  let delay_ticks := sub32 ticks_per_frame elapsed_ticks
  let last_ticks1 :=
    if elapsed_ticks < ticks_per_frame then add32 last_ticks delay_ticks else last_ticks
  let elapsed_ticks1 :=
    if elapsed_ticks < ticks_per_frame then add32 elapsed_ticks delay_ticks
    else elapsed_ticks
  let r := simulate w n ticks_per_frame MAX_FRAME_SKIP elapsed_ticks1 0 st.mgr
  let drawn :=
    if !r.2.2.m_screen_stack.isEmpty then draw w n r.2.2 else Except.ok r.2.2
  match drawn with
  | Except.error e => Except.error e
  | Except.ok m1 =>
    Except.ok { mgr := m1, last_ticks := last_ticks1, elapsed_ticks := r.1 }

/-- The whole body of `while (!m_screen_stack.empty())`; `sfuel` is the fuel given to
`handle_screen_switch`. -/
def run_body (env : Callbacks) (w : World) (sfuel n : Nat) (st : RunState) :
    Except Failure RunState :=
  match before_switch w n st with
  | Except.error e => Except.error e
  | Except.ok st1 =>
    match handle_screen_switch env sfuel st1.mgr with
    | Except.error e => Except.error e
    | Except.ok m1 => Except.ok { st1 with mgr := m1 }

/-- The loop `while (!m_screen_stack.empty())` of `run`; the first `Nat` bounds the
number of iterations, the second is the index of the current one. -/
def run_loop (env : Callbacks) (w : World) (sfuel : Nat) :
    Nat → Nat → RunState → Except Failure RunState
  | 0, _, st =>
    if st.mgr.m_screen_stack.isEmpty then Except.ok st
    else Except.error Failure.out_of_fuel
  | fuel + 1, n, st =>
    if st.mgr.m_screen_stack.isEmpty then Except.ok st
    else
      match run_body env w sfuel n st with
      | Except.error e => Except.error e
      | Except.ok st1 => run_loop env w sfuel fuel (n + 1) st1

/-- The function `ScreenManager::run`. -/
def run (env : Callbacks) (w : World) (sfuel fuel : Nat) (m : ScreenManager) :
    Except Failure RunState :=
  match handle_screen_switch env sfuel m with
  | Except.error e => Except.error e
  | Except.ok m1 =>
    run_loop env w sfuel fuel 0 { mgr := m1, last_ticks := 0, elapsed_ticks := 0 }

/-- A world in which nothing calls the manager, time stands still and a frame takes
`16` ticks. -/
def World.idle : World :=
  { ticks := fun _ => 0, ticks_per_frame := fun _ => 16,
    process_events := fun _ _ _ => [], update_gamelogic := fun _ _ _ => [],
    fade_update := fun _ _ f => f, draw := fun _ _ => [] }

/-! ## Well-formed batches -/

/-- Every Push action in the queue carries a screen: `push_screen` asserts it before it
enqueues, and nothing else enqueues a Push. -/
def pushes_carry_screen (actions : List Action) : Prop :=
  ∀ a ∈ actions, a.type = ActionType.PUSH_ACTION → a.screen ≠ none

/-- Some Pop of the batch is reached while the stack is empty: the actions before it
apply and leave no screen. -/
def pop_meets_empty_stack (stack : List Screen) (actions : List Action) : Prop :=
  ∃ pre a post, actions = pre ++ a :: post ∧ a.type = ActionType.POP_ACTION ∧
    stack_fold stack pre = Except.ok []

/-! ## `TileMap::resize` and `TileMap::get_tile_id` (`src/object/tilemap.cpp`) -/

/-- The members of `TileMap` that `resize` and `get_tile_id` use: the row-major
`std::vector<uint32_t> tiles` and the `int` members `width` and `height`. -/
structure TileMap where
  tiles : List Nat
  width : Int
  height : Int
deriving DecidableEq, Repr

/-- Conversion of an `int` to `uint32_t`. -/
def to_uint32 (i : Int) : Nat := (i % 4294967296).toNat

/-- The assignment `tiles[dst] = tiles[src]`; an index outside the vector is undefined
behaviour and gives `none`. -/
def copy_tile (tiles : List Nat) (dst src : Int) : Option (List Nat) :=
  if 0 ≤ src ∧ src < tiles.length ∧ 0 ≤ dst ∧ dst < tiles.length then
    some (tiles.set dst.toNat (tiles.getD src.toNat 0))
  else none

/-- The assignment `tiles[dst] = fill_id`. -/
def fill_tile (tiles : List Nat) (dst : Int) (fill_id : Int) : Option (List Nat) :=
  if 0 ≤ dst ∧ dst < tiles.length then some (tiles.set dst.toNat (to_uint32 fill_id))
  else none

/-- The call `tiles.resize(count, fill_id)` for a count that is not negative: the vector
is cut to `count` elements or extended with copies of `fill_id`. -/
def vector_resize (tiles : List Nat) (count : Nat) (fill_id : Int) : List Nat :=
  tiles.take count ++ List.replicate (count - tiles.length) (to_uint32 fill_id)

/-- The loops under `if(new_width < width)`: for `y` from `0` while
`y < height && y < new_height`, for `x` from `0` while `x < new_width`,
`tiles[y * new_width + x] = tiles[y * width + x]`. -/
def remap_narrower (tiles : List Nat) (width height new_width new_height : Int) :
    Option (List Nat) :=
  (List.range (min height new_height).toNat).foldlM
    (fun t y => (List.range new_width.toNat).foldlM
      (fun t x => copy_tile t ((y : Int) * new_width + (x : Int))
        ((y : Int) * width + (x : Int))) t)
    tiles

/-- The loops under `if(new_width > width)`: for `y` from `min(height, new_height)-1`
down to `0`, for `x` from `new_width-1` down to `0`, `tiles[y * new_width + x]` becomes
`fill_id` if `x >= width` and `tiles[y * width + x]` otherwise. -/
def remap_wider (tiles : List Nat) (width height new_width new_height : Int)
    (fill_id : Int) : Option (List Nat) :=
  (List.range (min height new_height).toNat).reverse.foldlM
    (fun t y => (List.range new_width.toNat).reverse.foldlM
      (fun t x =>
        if (x : Int) ≥ width then fill_tile t ((y : Int) * new_width + (x : Int)) fill_id
        else copy_tile t ((y : Int) * new_width + (x : Int))
          ((y : Int) * width + (x : Int))) t)
    tiles

/-- The function `TileMap::resize` (without `calculateDrawRects()`, which only rebuilds
the drawing cache). A negative `new_width * new_height` turns into a huge `size_t` and is
not modelled: it gives `none`, as an index outside the vector does. -/
def TileMap.resize (tm : TileMap) (new_width new_height fill_id : Int) : Option TileMap :=
  let narrowed :=
    if new_width < tm.width then
      remap_narrower tm.tiles tm.width tm.height new_width new_height
    else some tm.tiles
  match narrowed with
  | none => none
  | some tiles1 =>
    if new_width * new_height < 0 then none
    else
      let tiles2 := vector_resize tiles1 (new_width * new_height).toNat fill_id
      let widened :=
        if new_width > tm.width then
          remap_wider tiles2 tm.width tm.height new_width new_height fill_id
        else some tiles2
      match widened with
      | none => none
      | some tiles3 => some { tiles := tiles3, width := new_width, height := new_height }

/-- The function `TileMap::get_tile_id`; `none` is a read outside the vector. -/
def TileMap.get_tile_id (tm : TileMap) (x y : Int) : Option Nat :=
  if x < 0 ∨ x ≥ tm.width ∨ y < 0 ∨ y ≥ tm.height then some 0
  else
    if 0 ≤ y * tm.width + x ∧ y * tm.width + x < tm.tiles.length then
      some (tm.tiles.getD (y * tm.width + x).toNat 0)
    else none

/-! ## `Controller` (`src/control/controller.cpp`)

The enum `Control` and its last member `CONTROLCOUNT` are declared in
`control/controller.hpp`, which is not among the sources; the number of controls is a
parameter `n` and a control is an index below it. -/

/-- The arrays `controls` and `oldControls` of a `Controller`. -/
structure Controller (n : Nat) where
  controls : Fin n → Bool
  oldControls : Fin n → Bool

/-- The function `Controller::set_control`: `controls[control] = value`. -/
def Controller.set_control {n : Nat} (c : Controller n) (control : Fin n) (value : Bool) :
    Controller n :=
  { c with controls := Function.update c.controls control value }

/-- The function `Controller::hold`. -/
def Controller.hold {n : Nat} (c : Controller n) (control : Fin n) : Bool :=
  c.controls control

/-- The function `Controller::pressed`. -/
def Controller.pressed {n : Nat} (c : Controller n) (control : Fin n) : Bool :=
  !c.oldControls control && c.controls control

/-- The function `Controller::released`. -/
def Controller.released {n : Nat} (c : Controller n) (control : Fin n) : Bool :=
  c.oldControls control && !c.controls control

/-- The function `Controller::update`: for `i` from `0` while `i < CONTROLCOUNT`,
`oldControls[i] = controls[i]`. -/
def Controller.update {n : Nat} (c : Controller n) : Controller n :=
  (List.finRange n).foldl
    (fun c i => { c with oldControls := Function.update c.oldControls i (c.controls i) }) c

/-! ## Auxiliary definitions for the proofs -/

/-- The `SwitchState` at the head of a batch: `actions` moved out of `m_actions`,
`current_screen` the top of the stack (null for an empty stack), no Quit seen. -/
def batch_start (m : ScreenManager) : SwitchState :=
  { mgr := { m with m_actions := [] },
    current_screen := m.m_screen_stack.getLast?,
    quit_action_triggered := false }

/-- How a run of the `for` loop relates `current_screen` and the trace before and after:
either no `leave()` was called and `current_screen` is kept (or was nulled by a Quit), or
`leave()` was called once, on the screen `current_screen` pointed to, which is then null. -/
def LoopEffect (st st1 : SwitchState) : Prop :=
  (st1.mgr.trace = st.mgr.trace ∧
    (st1.current_screen = st.current_screen ∨
      (st1.current_screen = none ∧ st1.quit_action_triggered = true))) ∨
  (∃ c, st.current_screen = some c ∧ st1.current_screen = none ∧
    st1.mgr.trace = st.mgr.trace ++ [Event.leave c])

/-- The manager after `leave()` on the screen `current_screen` points to, if any. -/
def leave_current (env : Callbacks) (st : SwitchState) : ScreenManager :=
  match st.current_screen with
  | some c => call_leave env c st.mgr
  | none => st.mgr

/-! ## Basic facts about the enqueue functions and the callbacks -/

theorem perform_stack (m : ScreenManager) (c : Call) :
    (perform m c).m_screen_stack = m.m_screen_stack := by
  cases c <;> rfl

theorem perform_trace (m : ScreenManager) (c : Call) :
    (perform m c).trace = m.trace := by
  cases c <;> rfl

theorem calls_stack (cs : List Call) (m : ScreenManager) :
    (cs.foldl perform m).m_screen_stack = m.m_screen_stack := by
  induction cs generalizing m with
  | nil => rfl
  | cons c cs ih => simp [List.foldl_cons, ih, perform_stack]

theorem calls_trace (cs : List Call) (m : ScreenManager) :
    (cs.foldl perform m).trace = m.trace := by
  induction cs generalizing m with
  | nil => rfl
  | cons c cs ih => simp [List.foldl_cons, ih, perform_trace]

theorem call_leave_stack (env : Callbacks) (s : Screen) (m : ScreenManager) :
    (call_leave env s m).m_screen_stack = m.m_screen_stack := by
  simp [call_leave, calls_stack]

theorem call_leave_trace (env : Callbacks) (s : Screen) (m : ScreenManager) :
    (call_leave env s m).trace = m.trace ++ [Event.leave s] := by
  simp [call_leave, calls_trace]

theorem call_setup_stack (env : Callbacks) (s : Screen) (m : ScreenManager) :
    (call_setup env s m).m_screen_stack = m.m_screen_stack := by
  simp [call_setup, calls_stack]

theorem call_setup_trace (env : Callbacks) (s : Screen) (m : ScreenManager) :
    (call_setup env s m).trace = m.trace ++ [Event.setup s] := by
  simp [call_setup, calls_trace]

/-! ## The `for` loop over a batch: stack, flags and trace -/

theorem getLast?_eq_none_iff_isEmpty (l : List Screen) :
    l.getLast? = none ↔ l.isEmpty = true := by
  cases l <;> simp [List.getLast?]

/-- Every action that `apply_action` accepts has the stack effect `stack_step` gives. -/
theorem apply_action_stack (env : Callbacks) (st st1 : SwitchState) (a : Action)
    (h : apply_action env st a = Except.ok st1) :
    stack_step st.mgr.m_screen_stack a = Except.ok st1.mgr.m_screen_stack := by
  unfold apply_action at h
  unfold stack_step
  cases hty : a.type <;> simp only [hty] at h ⊢
  · cases hs : a.screen <;> simp only [hs] at h ⊢
    · cases h
    · injection h with h; subst h; rfl
  · cases hl : st.mgr.m_screen_stack.getLast? <;> simp only [hl] at h
    · cases h
    · have hne : st.mgr.m_screen_stack.isEmpty = false := by
        cases hst : st.mgr.m_screen_stack with
        | nil => rw [hst] at hl; simp at hl
        | cons x xs => rfl
      injection h with h; subst h
      simp only [hne]
      by_cases hc : st.current_screen = some ‹Screen› <;> simp [hc, call_leave_stack]
  · injection h with h; subst h; rfl

/-- Every action with a stack effect is accepted by `apply_action`. -/
theorem apply_action_of_stack_step (env : Callbacks) (st : SwitchState) (a : Action)
    (stack1 : List Screen)
    (h : stack_step st.mgr.m_screen_stack a = Except.ok stack1) :
    ∃ st1, apply_action env st a = Except.ok st1 ∧ st1.mgr.m_screen_stack = stack1 := by
  unfold stack_step at h
  unfold apply_action
  cases hty : a.type <;> simp only [hty] at h ⊢
  · cases hs : a.screen <;> simp only [hs] at h ⊢
    · cases h
    · injection h with h
      exact ⟨_, rfl, h⟩
  · cases hl : st.mgr.m_screen_stack.getLast? with
    | none =>
      rw [(getLast?_eq_none_iff_isEmpty _).1 hl] at h
      simp at h
    | some back =>
      have hne : st.mgr.m_screen_stack.isEmpty = false := by
        cases hst : st.mgr.m_screen_stack with
        | nil => rw [hst] at hl; simp at hl
        | cons x xs => rfl
      simp only [hne] at h
      injection h with h
      refine ⟨_, rfl, ?_⟩
      subst h
      split <;> simp [call_leave_stack]
  · injection h with h
    exact ⟨_, rfl, h⟩

theorem apply_actions_stack (env : Callbacks) (actions : List Action) (st st1 : SwitchState)
    (h : apply_actions env st actions = Except.ok st1) :
    stack_fold st.mgr.m_screen_stack actions = Except.ok st1.mgr.m_screen_stack := by
  induction actions generalizing st with
  | nil =>
    simp only [apply_actions] at h
    injection h with h; subst h; rfl
  | cons a rest ih =>
    simp only [apply_actions] at h
    cases ha : apply_action env st a with
    | error e => rw [ha] at h; cases h
    | ok st2 =>
      rw [ha] at h
      simp only [stack_fold, apply_action_stack env st st2 a ha]
      exact ih st2 h

theorem apply_actions_of_stack_fold (env : Callbacks) (actions : List Action)
    (st : SwitchState) (stack1 : List Screen)
    (h : stack_fold st.mgr.m_screen_stack actions = Except.ok stack1) :
    ∃ st1, apply_actions env st actions = Except.ok st1 ∧
      st1.mgr.m_screen_stack = stack1 := by
  induction actions generalizing st with
  | nil =>
    simp only [stack_fold] at h
    injection h with h
    exact ⟨st, rfl, h⟩
  | cons a rest ih =>
    simp only [stack_fold] at h
    cases hs : stack_step st.mgr.m_screen_stack a with
    | error e => rw [hs] at h; cases h
    | ok stack2 =>
      rw [hs] at h
      obtain ⟨st2, h2, h2s⟩ := apply_action_of_stack_step env st a stack2 hs
      rw [← h2s] at h
      obtain ⟨st3, h3, h3s⟩ := ih st2 h
      exact ⟨st3, by simp only [apply_actions, h2, h3], h3s⟩

theorem stack_fold_append (stack : List Screen) (pre post : List Action) :
    stack_fold stack (pre ++ post) =
      match stack_fold stack pre with
      | Except.error e => Except.error e
      | Except.ok stack1 => stack_fold stack1 post := by
  induction pre generalizing stack with
  | nil => rfl
  | cons a rest ih =>
    simp only [List.cons_append, stack_fold]
    cases stack_step stack a with
    | error e => rfl
    | ok stack2 => exact ih stack2

/-- From the empty stack, actions none of which is a Push leave the stack empty. -/
theorem stack_fold_nil_of_no_push (post : List Action) (stack1 : List Screen)
    (hpush : ∀ a ∈ post, a.type ≠ ActionType.PUSH_ACTION)
    (h : stack_fold [] post = Except.ok stack1) : stack1 = [] := by
  induction post with
  | nil =>
    simp only [stack_fold] at h
    injection h with h
    exact h.symm
  | cons a rest ih =>
    have ha := hpush a (List.mem_cons_self _ _)
    simp only [stack_fold, stack_step] at h
    cases hty : a.type with
    | PUSH_ACTION => exact absurd hty ha
    | POP_ACTION => simp [hty] at h
    | QUIT_ACTION =>
      simp only [hty] at h
      exact ih (fun b hb => hpush b (List.mem_cons_of_mem _ hb)) h

/-- The flag `quit_action_triggered` is never cleared inside the loop. -/
theorem apply_action_quit_mono (env : Callbacks) (st st1 : SwitchState) (a : Action)
    (h : apply_action env st a = Except.ok st1)
    (hq : st.quit_action_triggered = true ∨ a.type = ActionType.QUIT_ACTION) :
    st1.quit_action_triggered = true := by
  unfold apply_action at h
  cases hty : a.type <;> simp only [hty] at h hq
  · cases hs : a.screen <;> simp only [hs] at h
    · cases h
    · injection h with h; subst h
      simpa using hq
  · cases hl : st.mgr.m_screen_stack.getLast? <;> simp only [hl] at h
    · cases h
    · injection h with h; subst h
      have hq1 : st.quit_action_triggered = true := by simpa using hq
      split <;> simp [hq1]
  · injection h with h; subst h; rfl

theorem apply_actions_quit_mono (env : Callbacks) (actions : List Action)
    (st st1 : SwitchState) (h : apply_actions env st actions = Except.ok st1)
    (hq : st.quit_action_triggered = true ∨
      ∃ a ∈ actions, a.type = ActionType.QUIT_ACTION) :
    st1.quit_action_triggered = true := by
  induction actions generalizing st with
  | nil =>
    simp only [apply_actions] at h
    injection h with h; subst h
    simpa using hq
  | cons a rest ih =>
    simp only [apply_actions] at h
    cases ha : apply_action env st a with
    | error e => rw [ha] at h; cases h
    | ok st2 =>
      rw [ha] at h
      apply ih st2 h
      rcases hq with hq | ⟨b, hb, hbq⟩
      · exact Or.inl (apply_action_quit_mono env st st2 a ha (Or.inl hq))
      · rcases List.mem_cons.1 hb with rfl | hb
        · exact Or.inl (apply_action_quit_mono env st st2 b ha (Or.inr hbq))
        · exact Or.inr ⟨b, hb, hbq⟩

/-- Without a Quit action the flag `quit_action_triggered` keeps its value. -/
theorem apply_actions_no_quit (env : Callbacks) (actions : List Action)
    (st st1 : SwitchState) (h : apply_actions env st actions = Except.ok st1)
    (hnq : ∀ a ∈ actions, a.type ≠ ActionType.QUIT_ACTION) :
    st1.quit_action_triggered = st.quit_action_triggered := by
  induction actions generalizing st with
  | nil =>
    simp only [apply_actions] at h
    injection h with h; subst h; rfl
  | cons a rest ih =>
    simp only [apply_actions] at h
    cases ha : apply_action env st a with
    | error e => rw [ha] at h; cases h
    | ok st2 =>
      rw [ha] at h
      rw [ih st2 h (fun b hb => hnq b (List.mem_cons_of_mem _ hb))]
      have hna := hnq a (List.mem_cons_self _ _)
      unfold apply_action at ha
      cases hty : a.type <;> simp only [hty] at ha
      · cases hs : a.screen <;> simp only [hs] at ha
        · cases ha
        · injection ha with ha; subst ha; rfl
      · cases hl : st.mgr.m_screen_stack.getLast? <;> simp only [hl] at ha
        · cases ha
        · injection ha with ha; subst ha
          by_cases hc : st.current_screen = some ‹Screen› <;> simp [hc]
      · exact absurd hty hna

theorem apply_action_effect (env : Callbacks) (st st1 : SwitchState) (a : Action)
    (h : apply_action env st a = Except.ok st1) : LoopEffect st st1 := by
  unfold apply_action at h
  cases hty : a.type <;> simp only [hty] at h
  · cases hs : a.screen <;> simp only [hs] at h
    · cases h
    · injection h with h; subst h
      exact Or.inl ⟨rfl, Or.inl rfl⟩
  · cases hl : st.mgr.m_screen_stack.getLast? with
    | none => simp only [hl] at h; cases h
    | some back =>
      simp only [hl] at h
      injection h with h; subst h
      by_cases hc : st.current_screen = some back
      · refine Or.inr ⟨back, hc, ?_, ?_⟩ <;> simp [hc, call_leave_trace]
      · refine Or.inl ⟨?_, Or.inl ?_⟩ <;> simp [hc]
  · injection h with h; subst h
    exact Or.inl ⟨rfl, Or.inr ⟨rfl, rfl⟩⟩

theorem apply_actions_effect (env : Callbacks) (actions : List Action)
    (st st1 : SwitchState) (h : apply_actions env st actions = Except.ok st1) :
    LoopEffect st st1 := by
  induction actions generalizing st with
  | nil =>
    simp only [apply_actions] at h
    injection h with h; subst h
    exact Or.inl ⟨rfl, Or.inl rfl⟩
  | cons a rest ih =>
    simp only [apply_actions] at h
    cases ha : apply_action env st a with
    | error e => rw [ha] at h; cases h
    | ok st2 =>
      rw [ha] at h
      have e1 := apply_action_effect env st st2 a ha
      have e2 := ih st2 h
      rcases e1 with ⟨t1, c1⟩ | ⟨c, hc, hc2, t1⟩
      · rcases e2 with ⟨t2, c2⟩ | ⟨c, hc, hc1, t2⟩
        · refine Or.inl ⟨t2.trans t1, ?_⟩
          rcases c2 with c2 | c2
          · rcases c1 with c1 | ⟨c1, q1⟩
            · exact Or.inl (c2.trans c1)
            · exact Or.inr ⟨c2.trans c1,
                apply_actions_quit_mono env rest st2 st1 h (Or.inl q1)⟩
          · exact Or.inr c2
        · rcases c1 with c1 | ⟨c1, _⟩
          · exact Or.inr ⟨c, c1 ▸ hc, hc1, by rw [t2, t1]⟩
          · rw [c1] at hc; cases hc
      · rcases e2 with ⟨t2, c2⟩ | ⟨c3, hc3, _, _⟩
        · refine Or.inr ⟨c, hc, ?_, by rw [t2, t1]⟩
          rcases c2 with c2 | ⟨c2, _⟩
          · exact c2.trans hc2
          · exact c2
        · rw [hc2] at hc3; cases hc3

/-! ## The code after the `for` loop -/

theorem finish_batch_quit (env : Callbacks) (st : SwitchState)
    (hq : st.quit_action_triggered = true) : finish_batch env st = Except.ok st.mgr := by
  simp [finish_batch, hq]

theorem finish_batch_same_top (env : Callbacks) (st : SwitchState) (back : Screen)
    (hq : st.quit_action_triggered = false)
    (hl : st.mgr.m_screen_stack.getLast? = some back)
    (hc : st.current_screen = some back) : finish_batch env st = Except.ok st.mgr := by
  simp [finish_batch, hq, hl, hc]

theorem leave_current_stack (env : Callbacks) (st : SwitchState) :
    (leave_current env st).m_screen_stack = st.mgr.m_screen_stack := by
  unfold leave_current
  cases st.current_screen <;> simp [call_leave_stack]

theorem leave_current_trace (env : Callbacks) (st : SwitchState) :
    (leave_current env st).trace =
      st.mgr.trace ++ (match st.current_screen with
        | some c => [Event.leave c]
        | none => []) := by
  unfold leave_current
  cases st.current_screen <;> simp [call_leave_trace]

theorem finish_batch_new_top (env : Callbacks) (st : SwitchState) (back : Screen)
    (hq : st.quit_action_triggered = false)
    (hl : st.mgr.m_screen_stack.getLast? = some back)
    (hc : st.current_screen ≠ some back) :
    ∃ m1, finish_batch env st = Except.ok m1 ∧ m1.m_speed = 1 ∧
      m1.m_screen_stack = st.mgr.m_screen_stack ∧
      m1.trace = (leave_current env st).trace ++
        [Event.setup back, Event.wakeup_screenswitch] := by
  have hne : (leave_current env st).m_screen_stack.isEmpty = false := by
    rw [leave_current_stack]
    cases hst : st.mgr.m_screen_stack with
    | nil => rw [hst] at hl; simp at hl
    | cons x xs => rfl
  have hne1 := hne
  unfold leave_current at hne1
  refine ⟨{ call_setup env back (leave_current env st) with
      m_speed := 1,
      trace := (call_setup env back (leave_current env st)).trace ++
        [Event.wakeup_screenswitch] }, ?_, rfl, ?_, ?_⟩
  · simp only [finish_batch, hq, hl, ne_eq, hc, not_false_eq_true, if_true, hne1]
    rfl
  · show (call_setup env back (leave_current env st)).m_screen_stack = _
    rw [call_setup_stack, leave_current_stack]
  · show (call_setup env back (leave_current env st)).trace ++ _ = _
    rw [call_setup_trace]
    simp

theorem finish_batch_ok_top (env : Callbacks) (st : SwitchState) (m1 : ScreenManager)
    (h : finish_batch env st = Except.ok m1) (hq : st.quit_action_triggered = false) :
    ∃ back, st.mgr.m_screen_stack.getLast? = some back := by
  cases hl : st.mgr.m_screen_stack.getLast? with
  | none => simp [finish_batch, hq, hl] at h
  | some back => exact ⟨back, rfl⟩

/-! ## One batch as a whole -/

theorem process_batch_eq (env : Callbacks) (m : ScreenManager) :
    process_batch env m =
      match apply_actions env (batch_start m) m.m_actions with
      | Except.error e => Except.error e
      | Except.ok st1 => finish_batch env st1 := rfl

theorem process_batch_ok (env : Callbacks) (m m1 : ScreenManager)
    (h : process_batch env m = Except.ok m1) :
    ∃ st1, apply_actions env (batch_start m) m.m_actions = Except.ok st1 ∧
      finish_batch env st1 = Except.ok m1 := by
  rw [process_batch_eq] at h
  cases ha : apply_actions env (batch_start m) m.m_actions with
  | error e => rw [ha] at h; cases h
  | ok st1 => rw [ha] at h; exact ⟨st1, rfl, h⟩

theorem count_leave_singleton (x c : Screen) :
    List.count (Event.leave x) [Event.leave c] = if c = x then 1 else 0 := by
  simp [List.count_cons]

theorem count_setup_leave (x c : Screen) :
    List.count (Event.setup x) [Event.leave c] = 0 := by
  simp [List.count_cons]

theorem count_setup_tail (x b : Screen) :
    List.count (Event.setup x) [Event.setup b, Event.wakeup_screenswitch]
      = if b = x then 1 else 0 := by
  simp [List.count_cons]

theorem count_leave_tail (x b : Screen) :
    List.count (Event.leave x) [Event.setup b, Event.wakeup_screenswitch] = 0 := by
  simp [List.count_cons]

/-- The `for` loop calls no `setup()`. -/
theorem loop_effect_count_setup (st st1 : SwitchState) (h : LoopEffect st st1)
    (x : Screen) :
    List.count (Event.setup x) st1.mgr.trace = List.count (Event.setup x) st.mgr.trace := by
  rcases h with ⟨t, _⟩ | ⟨c, _, _, t⟩
  · rw [t]
  · rw [t, List.count_append, count_setup_leave]; rfl

/-! ## Claims about enqueueing and the fade gate -/

/-- C2: while a fade is active and its `done()` is false, `handle_screen_switch` returns
the manager it was given: stack, pending queue, active fade and speed are unchanged and the
trace gains no `setup()` or `leave()` call. -/
theorem handle_screen_switch_pending_fade (env : Callbacks) (fuel : Nat) (m : ScreenManager)
    (f : ScreenFade) (hfade : m.m_screen_fade = some f) (hdone : f.done = false) :
    handle_screen_switch env fuel m = Except.ok m := by
  have h : has_pending_fadeout m = true := by
    simp [has_pending_fadeout, hfade, hdone]
  simp [handle_screen_switch, h]

/-- Witness of C2: a manager with screens, pending actions and an unfinished fade. -/
theorem handle_screen_switch_pending_fade_witness :
    handle_screen_switch Callbacks.quiet 0
      { m_speed := 3, m_actions := [⟨ActionType.POP_ACTION, none⟩],
        m_screen_fade := some ⟨7, false⟩, m_screen_stack := [1, 2],
        transitions_enabled := true, trace := [] }
    = Except.ok
      { m_speed := 3, m_actions := [⟨ActionType.POP_ACTION, none⟩],
        m_screen_fade := some ⟨7, false⟩, m_screen_stack := [1, 2],
        transitions_enabled := true, trace := [] } :=
  handle_screen_switch_pending_fade Callbacks.quiet 0 _ ⟨7, false⟩ rfl rfl

/-- C3: `push_screen` with a non-null screen, `pop_screen` and `quit` leave the screen
stack as it is and append exactly one action of their kind at the back of the pending
queue, behind the actions already queued. -/
theorem enqueue_appends_one_action (m : ScreenManager) (s : Screen)
    (screen_fade : Option ScreenFade) :
    (∃ m1, push_screen m (some s) screen_fade = Except.ok m1 ∧
      m1.m_screen_stack = m.m_screen_stack ∧
      m1.m_actions = m.m_actions ++ [⟨ActionType.PUSH_ACTION, some s⟩]) ∧
    ((pop_screen m screen_fade).m_screen_stack = m.m_screen_stack ∧
      (pop_screen m screen_fade).m_actions
        = m.m_actions ++ [⟨ActionType.POP_ACTION, none⟩]) ∧
    ((quit m screen_fade).m_screen_stack = m.m_screen_stack ∧
      (quit m screen_fade).m_actions
        = m.m_actions ++ [⟨ActionType.QUIT_ACTION, none⟩]) :=
  ⟨⟨enqueue_push m s screen_fade, rfl, rfl, rfl⟩, ⟨rfl, rfl⟩, ⟨rfl, rfl⟩⟩

/-- C6, as stated, fails: with transitions enabled, `pop_screen` called without a fade
argument does not keep the active fade, it replaces it by the null pointer. -/
theorem enqueue_without_fade_discards_active_fade :
    (pop_screen
      { m_speed := 1, m_actions := [], m_screen_fade := some ⟨7, false⟩,
        m_screen_stack := [1], transitions_enabled := true, trace := [] } none).m_screen_fade
      = none ∧
    (pop_screen
      { m_speed := 1, m_actions := [], m_screen_fade := some ⟨7, false⟩,
        m_screen_stack := [1], transitions_enabled := true, trace := [] } none).m_screen_fade
      ≠ some ⟨7, false⟩ := by
  decide

/-- C6, amended: after `push_screen`, `pop_screen` or `quit` the active fade is the fade
argument when transitions are enabled (the null pointer when no fade is supplied, which
discards the fade that was active), and is the fade active before the call when
transitions are disabled. -/
theorem enqueue_active_fade (m : ScreenManager) (s : Screen)
    (screen_fade : Option ScreenFade) :
    (∃ m1, push_screen m (some s) screen_fade = Except.ok m1 ∧
      m1.m_screen_fade = if m.transitions_enabled then screen_fade else m.m_screen_fade) ∧
    (pop_screen m screen_fade).m_screen_fade
      = (if m.transitions_enabled then screen_fade else m.m_screen_fade) ∧
    (quit m screen_fade).m_screen_fade
      = (if m.transitions_enabled then screen_fade else m.m_screen_fade) :=
  ⟨⟨enqueue_push m s screen_fade, rfl, rfl⟩, rfl, rfl⟩

/-! ## Claims about one batch of `handle_screen_switch` -/

/-- C1, as stated, fails: from the stack `[1]` and the pending queue `[Quit, Push(2)]`
(no fade), `handle_screen_switch` clears the stack at the Quit and then still applies the
Push that follows it; the stack after the batch is `[2]`, not empty. -/
theorem quit_does_not_stop_the_batch :
    ∃ m1, handle_screen_switch Callbacks.quiet 1
        { m_speed := 1,
          m_actions := [⟨ActionType.QUIT_ACTION, none⟩, ⟨ActionType.PUSH_ACTION, some 2⟩],
          m_screen_fade := none, m_screen_stack := [1],
          transitions_enabled := true, trace := [] } = Except.ok m1 ∧
      m1.m_screen_stack = [2] ∧ m1.m_screen_stack ≠ [] :=
  ⟨_, rfl, rfl, by decide⟩

/-- C1, amended: for every stack and every batch `pre ++ Quit :: post` whose actions meet
no failed assertion, the batch completes and applies every action in FIFO order, the ones
after the Quit included: the stack is cleared at the Quit and the Push and Pop actions of
`post` are then applied to the empty stack. The stack after the batch is the one `post`
builds from the empty stack; it is empty when no Push follows the Quit. -/
theorem quit_batch_applies_later_actions (env : Callbacks) (m : ScreenManager)
    (pre post : List Action) (q : Action) (stack1 stack2 : List Screen)
    (hq : q.type = ActionType.QUIT_ACTION)
    (hact : m.m_actions = pre ++ q :: post)
    (hpre : stack_fold m.m_screen_stack pre = Except.ok stack1)
    (hpost : stack_fold [] post = Except.ok stack2) :
    ∃ m1, process_batch env m = Except.ok m1 ∧
      stack_fold m.m_screen_stack m.m_actions = Except.ok m1.m_screen_stack ∧
      m1.m_screen_stack = stack2 ∧
      ((∀ a ∈ post, a.type ≠ ActionType.PUSH_ACTION) → m1.m_screen_stack = []) := by
  have hall : stack_fold m.m_screen_stack m.m_actions = Except.ok stack2 := by
    rw [hact, stack_fold_append, hpre]
    simp only [stack_fold, stack_step, hq]
    exact hpost
  obtain ⟨st1, h1, h1s⟩ :=
    apply_actions_of_stack_fold env m.m_actions (batch_start m) stack2 hall
  have hquit : st1.quit_action_triggered = true :=
    apply_actions_quit_mono env m.m_actions (batch_start m) st1 h1
      (Or.inr ⟨q, by rw [hact]; simp, hq⟩)
  refine ⟨st1.mgr, ?_, ?_, h1s, ?_⟩
  · rw [process_batch_eq, h1]
    exact finish_batch_quit env st1 hquit
  · rw [h1s]; exact hall
  · intro hpush
    rw [h1s]
    exact stack_fold_nil_of_no_push post stack2 hpush hpost

/-- Witness of amended C1: stack `[1]`, batch `[Push(2), Quit, Push(3)]`. -/
theorem quit_batch_applies_later_actions_witness :
    ∃ m1, process_batch Callbacks.quiet
        { m_speed := 1,
          m_actions := [⟨ActionType.PUSH_ACTION, some 2⟩] ++
            ⟨ActionType.QUIT_ACTION, none⟩ :: [⟨ActionType.PUSH_ACTION, some 3⟩],
          m_screen_fade := none, m_screen_stack := [1],
          transitions_enabled := true, trace := [] } = Except.ok m1 ∧
      stack_fold [1] ([⟨ActionType.PUSH_ACTION, some 2⟩] ++
            ⟨ActionType.QUIT_ACTION, none⟩ :: [⟨ActionType.PUSH_ACTION, some 3⟩])
        = Except.ok m1.m_screen_stack ∧
      m1.m_screen_stack = [3] ∧
      ((∀ a ∈ [(⟨ActionType.PUSH_ACTION, some 3⟩ : Action)],
        a.type ≠ ActionType.PUSH_ACTION) → m1.m_screen_stack = []) :=
  quit_batch_applies_later_actions Callbacks.quiet _ [⟨ActionType.PUSH_ACTION, some 2⟩]
    [⟨ActionType.PUSH_ACTION, some 3⟩] ⟨ActionType.QUIT_ACTION, none⟩ [1, 2] [3]
    rfl rfl rfl rfl

/-- C7: whatever speed was set beforehand with `set_speed`, when a batch with no Quit
ends with a top screen different from the top at the start of the batch, the batch
completes and `get_speed()` returns exactly 1 afterwards (also when the `setup()` of the
new top calls `set_speed`: the reset follows the `setup()` call). -/
theorem speed_reset_on_top_change (env : Callbacks) (m : ScreenManager) (v : Rat)
    (stack1 : List Screen) (t : Screen)
    (hnq : ∀ a ∈ m.m_actions, a.type ≠ ActionType.QUIT_ACTION)
    (hfold : stack_fold m.m_screen_stack m.m_actions = Except.ok stack1)
    (htop : stack1.getLast? = some t)
    (hne : m.m_screen_stack.getLast? ≠ some t) :
    ∃ m1, process_batch env (set_speed m v) = Except.ok m1 ∧
      m1.m_screen_stack = stack1 ∧ get_speed m1 = 1 := by
  obtain ⟨st1, h1, h1s⟩ :=
    apply_actions_of_stack_fold env (set_speed m v).m_actions (batch_start (set_speed m v))
      stack1 hfold
  have hquit : st1.quit_action_triggered = false :=
    apply_actions_no_quit env _ _ st1 h1 hnq
  have hcur : st1.current_screen ≠ some t := by
    intro hc
    rcases apply_actions_effect env _ _ st1 h1 with ⟨_, c | ⟨c, _⟩⟩ | ⟨_, _, c, _⟩
    · rw [hc] at c
      exact hne c.symm
    · rw [hc] at c; cases c
    · rw [hc] at c; cases c
  obtain ⟨m1, hm1, hspeed, hstack, _⟩ :=
    finish_batch_new_top env st1 t hquit (by rw [h1s]; exact htop) hcur
  refine ⟨m1, ?_, by rw [hstack, h1s], hspeed⟩
  rw [process_batch_eq, h1]
  exact hm1

/-- Witness of C7: speed `5`, stack `[1]`, batch `[Push(2)]`. -/
theorem speed_reset_on_top_change_witness :
    ∃ m1, process_batch Callbacks.quiet (set_speed
        { m_speed := 1, m_actions := [⟨ActionType.PUSH_ACTION, some 2⟩],
          m_screen_fade := none, m_screen_stack := [1],
          transitions_enabled := true, trace := [] } 5) = Except.ok m1 ∧
      m1.m_screen_stack = [1, 2] ∧ get_speed m1 = 1 :=
  speed_reset_on_top_change Callbacks.quiet _ 5 [1, 2] 2 (by decide) rfl rfl (by decide)

/-! ## Lifecycle calls: `setup()` and `leave()` -/

/-- C4, as stated, fails: push screen 1, reconcile, push screen 2, reconcile, pop,
reconcile. Screen 1 is on top again after the pop and receives `setup()` a second time. -/
theorem setup_called_again_on_reentry :
    ∃ m1, run_ops Callbacks.quiet 1 (ScreenManager.create true)
        [Op.push_screen (some 1) none, Op.handle_screen_switch,
         Op.push_screen (some 2) none, Op.handle_screen_switch,
         Op.pop_screen none, Op.handle_screen_switch] = Except.ok m1 ∧
      m1.m_screen_stack = [1] ∧
      m1.trace = [Event.setup 1, Event.wakeup_screenswitch,
                  Event.leave 1, Event.setup 2, Event.wakeup_screenswitch,
                  Event.leave 2, Event.setup 1, Event.wakeup_screenswitch] ∧
      List.count (Event.setup 1) m1.trace = 2 :=
  ⟨_, rfl, rfl, rfl, by decide⟩

/-- C4, amended: in every batch that completes, `setup()` is invoked at most once and
only on the screen on top of the stack at the end of the batch, and only if the batch has
no Quit; a batch with no Quit whose final top differs from the top at its start invokes
`setup()` on the final top exactly once, whether or not that screen had `setup()` before
(so a screen receives `setup()` again when the screen above it is popped). -/
theorem setup_once_per_batch_on_new_top (env : Callbacks) (m m1 : ScreenManager)
    (h : process_batch env m = Except.ok m1) :
    (∀ x, List.count (Event.setup x) m1.trace ≤ List.count (Event.setup x) m.trace + 1) ∧
    (∀ x, List.count (Event.setup x) m1.trace ≠ List.count (Event.setup x) m.trace →
      m1.m_screen_stack.getLast? = some x ∧
      ∀ a ∈ m.m_actions, a.type ≠ ActionType.QUIT_ACTION) ∧
    ((∀ a ∈ m.m_actions, a.type ≠ ActionType.QUIT_ACTION) →
      ∀ t, m1.m_screen_stack.getLast? = some t → m.m_screen_stack.getLast? ≠ some t →
        List.count (Event.setup t) m1.trace = List.count (Event.setup t) m.trace + 1) := by
  obtain ⟨st1, h1, h2⟩ := process_batch_ok env m m1 h
  have heff := apply_actions_effect env _ _ st1 h1
  have hcount : ∀ x, List.count (Event.setup x) st1.mgr.trace
      = List.count (Event.setup x) m.trace :=
    fun x => loop_effect_count_setup _ st1 heff x
  cases hq : st1.quit_action_triggered with
  | true =>
    rw [finish_batch_quit env st1 hq] at h2
    injection h2 with h2; subst h2
    refine ⟨fun x => by rw [hcount x]; omega, fun x hx => absurd (hcount x) hx, ?_⟩
    intro hnq
    have := apply_actions_no_quit env _ _ st1 h1 hnq
    rw [hq] at this
    cases this
  | false =>
    obtain ⟨back, hl⟩ := finish_batch_ok_top env st1 m1 h2 hq
    by_cases hc : st1.current_screen = some back
    · rw [finish_batch_same_top env st1 back hq hl hc] at h2
      injection h2 with h2; subst h2
      refine ⟨fun x => by rw [hcount x]; omega, fun x hx => absurd (hcount x) hx, ?_⟩
      intro _ t ht hne
      exfalso
      rw [hl] at ht
      injection ht with ht; subst ht
      rcases heff with ⟨_, c | ⟨c, q⟩⟩ | ⟨_, _, c, _⟩
      · rw [hc] at c; exact hne c.symm
      · rw [hq] at q; cases q
      · rw [hc] at c; cases c
    · obtain ⟨m2, hm2, _, hstack, htrace⟩ := finish_batch_new_top env st1 back hq hl hc
      rw [hm2] at h2
      injection h2 with h2; subst h2
      have hcnt : ∀ x, List.count (Event.setup x) m2.trace
          = List.count (Event.setup x) m.trace + if back = x then 1 else 0 := by
        intro x
        rw [htrace, leave_current_trace, List.count_append, List.count_append,
          count_setup_tail, hcount x]
        cases st1.current_screen <;> simp [count_setup_leave]
      refine ⟨?_, ?_, ?_⟩
      · intro x
        rw [hcnt x]
        split <;> omega
      · intro x hx
        rw [hcnt x] at hx
        by_cases hbx : back = x
        · subst hbx
          refine ⟨by rw [hstack]; exact hl, ?_⟩
          intro a ha hqa
          have := apply_actions_quit_mono env _ _ st1 h1 (Or.inr ⟨a, ha, hqa⟩)
          rw [hq] at this
          cases this
        · simp [hbx] at hx
      · intro _ t ht _
        rw [hstack, hl] at ht
        injection ht with ht; subst ht
        rw [hcnt back]
        simp

/-- Witness of amended C4: stack `[1, 2]`, both screens already set up, batch `[Pop]`. -/
theorem setup_once_per_batch_on_new_top_witness :
    (∀ x, List.count (Event.setup x)
        [Event.setup 1, Event.setup 2, Event.leave 2, Event.setup 1,
         Event.wakeup_screenswitch]
      ≤ List.count (Event.setup x) [Event.setup 1, Event.setup 2] + 1) ∧
    (∀ x, List.count (Event.setup x)
        [Event.setup 1, Event.setup 2, Event.leave 2, Event.setup 1,
         Event.wakeup_screenswitch]
      ≠ List.count (Event.setup x) [Event.setup 1, Event.setup 2] →
      [1].getLast? = some x ∧
      ∀ a ∈ [(⟨ActionType.POP_ACTION, none⟩ : Action)],
        a.type ≠ ActionType.QUIT_ACTION) ∧
    ((∀ a ∈ [(⟨ActionType.POP_ACTION, none⟩ : Action)],
        a.type ≠ ActionType.QUIT_ACTION) →
      ∀ t, [1].getLast? = some t → [1, 2].getLast? ≠ some t →
        List.count (Event.setup t)
          [Event.setup 1, Event.setup 2, Event.leave 2, Event.setup 1,
           Event.wakeup_screenswitch]
        = List.count (Event.setup t) [Event.setup 1, Event.setup 2] + 1) :=
  setup_once_per_batch_on_new_top Callbacks.quiet
    { m_speed := 1, m_actions := [⟨ActionType.POP_ACTION, none⟩],
      m_screen_fade := none, m_screen_stack := [1, 2],
      transitions_enabled := true, trace := [Event.setup 1, Event.setup 2] }
    { m_speed := 1, m_actions := [],
      m_screen_fade := none, m_screen_stack := [1],
      transitions_enabled := true,
      trace := [Event.setup 1, Event.setup 2, Event.leave 2, Event.setup 1,
                Event.wakeup_screenswitch] }
    rfl

/-- C5, as stated, fails: push screen 1, reconcile, push 2, reconcile, pop, reconcile,
push 3, reconcile. Screen 1 is covered twice and receives `leave()` twice. -/
theorem leave_called_again_when_covered_again :
    ∃ m1, run_ops Callbacks.quiet 1 (ScreenManager.create true)
        [Op.push_screen (some 1) none, Op.handle_screen_switch,
         Op.push_screen (some 2) none, Op.handle_screen_switch,
         Op.pop_screen none, Op.handle_screen_switch,
         Op.push_screen (some 3) none, Op.handle_screen_switch] = Except.ok m1 ∧
      m1.m_screen_stack = [1, 3] ∧
      m1.trace = [Event.setup 1, Event.wakeup_screenswitch,
                  Event.leave 1, Event.setup 2, Event.wakeup_screenswitch,
                  Event.leave 2, Event.setup 1, Event.wakeup_screenswitch,
                  Event.leave 1, Event.setup 3, Event.wakeup_screenswitch] ∧
      List.count (Event.leave 1) m1.trace = 2 :=
  ⟨_, rfl, rfl, rfl, by decide⟩

/-- C5, amended: in every batch that completes, `leave()` is called at most once and only
on the screen that was on top of the stack at the start of the batch; in a batch with no
Quit it is called exactly once on that screen when the top at the end of the batch is a
different screen (the screen was popped or is covered by a pushed screen), whether or
not the screen had `leave()` before. -/
theorem leave_once_per_batch_on_old_top (env : Callbacks) (m m1 : ScreenManager)
    (h : process_batch env m = Except.ok m1) :
    (∀ x, List.count (Event.leave x) m1.trace ≤ List.count (Event.leave x) m.trace + 1) ∧
    (∀ x, List.count (Event.leave x) m1.trace ≠ List.count (Event.leave x) m.trace →
      m.m_screen_stack.getLast? = some x) ∧
    ((∀ a ∈ m.m_actions, a.type ≠ ActionType.QUIT_ACTION) →
      ∀ c, m.m_screen_stack.getLast? = some c → m1.m_screen_stack.getLast? ≠ some c →
        List.count (Event.leave c) m1.trace = List.count (Event.leave c) m.trace + 1) := by
  obtain ⟨st1, h1, h2⟩ := process_batch_ok env m m1 h
  have heff := apply_actions_effect env _ _ st1 h1
  have hstart : (batch_start m).current_screen = m.m_screen_stack.getLast? := rfl
  have htr0 : (batch_start m).mgr.trace = m.trace := rfl
  -- the trace of the whole batch: the old trace, at most one `leave` on the old top, and
  -- events that are no `leave`
  have key : ∃ tail, (∀ x, List.count (Event.leave x) tail = 0) ∧
      (m1.trace = m.trace ++ tail ∨
        ∃ c, m.m_screen_stack.getLast? = some c ∧
          m1.trace = m.trace ++ [Event.leave c] ++ tail) ∧
      ((∀ a ∈ m.m_actions, a.type ≠ ActionType.QUIT_ACTION) →
        ∀ c, m.m_screen_stack.getLast? = some c → m1.m_screen_stack.getLast? ≠ some c →
          m1.trace = m.trace ++ [Event.leave c] ++ tail) := by
    cases hq : st1.quit_action_triggered with
    | true =>
      rw [finish_batch_quit env st1 hq] at h2
      injection h2 with h2; subst h2
      refine ⟨[], fun x => rfl, ?_, ?_⟩
      · rcases heff with ⟨t, _⟩ | ⟨c, hc, _, t⟩
        · exact Or.inl (by rw [t, htr0]; simp)
        · exact Or.inr ⟨c, hstart ▸ hc, by rw [t, htr0]; simp⟩
      · intro hnq
        have := apply_actions_no_quit env _ _ st1 h1 hnq
        rw [hq] at this
        cases this
    | false =>
      obtain ⟨back, hl⟩ := finish_batch_ok_top env st1 m1 h2 hq
      by_cases hc : st1.current_screen = some back
      · rw [finish_batch_same_top env st1 back hq hl hc] at h2
        injection h2 with h2; subst h2
        refine ⟨[], fun x => rfl, ?_, ?_⟩
        · rcases heff with ⟨t, _⟩ | ⟨c, hc1, _, t⟩
          · exact Or.inl (by rw [t, htr0]; simp)
          · exact Or.inr ⟨c, hstart ▸ hc1, by rw [t, htr0]; simp⟩
        · intro _ c hc0 hne
          exfalso
          rcases heff with ⟨_, c1 | ⟨c1, q⟩⟩ | ⟨_, _, c1, _⟩
          · rw [hc, hstart, hc0] at c1
            injection c1 with c1; subst c1
            exact hne hl
          · rw [hq] at q; cases q
          · rw [hc] at c1; cases c1
      · obtain ⟨m2, hm2, _, hstack, htrace⟩ := finish_batch_new_top env st1 back hq hl hc
        rw [hm2] at h2
        injection h2 with h2; subst h2
        refine ⟨[Event.setup back, Event.wakeup_screenswitch],
          fun x => count_leave_tail x back, ?_, ?_⟩
        · rcases heff with ⟨t, c1 | ⟨_, q⟩⟩ | ⟨c, hc1, hc2, t⟩
          · rw [htrace, leave_current_trace, t, htr0, c1, hstart]
            cases hm : m.m_screen_stack.getLast? with
            | none => exact Or.inl (by simp)
            | some c => exact Or.inr ⟨c, rfl, by simp⟩
          · rw [hq] at q; cases q
          · refine Or.inr ⟨c, hstart ▸ hc1, ?_⟩
            rw [htrace, leave_current_trace, t, htr0, hc2]
            simp
        · intro _ c hc0 _
          rcases heff with ⟨t, c1 | ⟨_, q⟩⟩ | ⟨c3, hc1, hc2, t⟩
          · rw [htrace, leave_current_trace, t, htr0, c1, hstart, hc0]
          · rw [hq] at q; cases q
          · rw [hstart, hc0] at hc1
            injection hc1 with hc1; subst hc1
            rw [htrace, leave_current_trace, t, htr0, hc2]
            simp
  obtain ⟨tail, htail, hshape, hexact⟩ := key
  refine ⟨?_, ?_, ?_⟩
  · intro x
    rcases hshape with t | ⟨c, _, t⟩
    · rw [t, List.count_append, htail x]; omega
    · rw [t, List.count_append, List.count_append, htail x, count_leave_singleton]
      split <;> omega
  · intro x hx
    rcases hshape with t | ⟨c, hc, t⟩
    · rw [t, List.count_append, htail x] at hx
      exact absurd rfl hx
    · rw [t, List.count_append, List.count_append, htail x, count_leave_singleton] at hx
      by_cases hcx : c = x
      · rw [← hcx]; exact hc
      · simp [hcx] at hx
  · intro hnq c hc hne
    rw [hexact hnq c hc hne, List.count_append, List.count_append, htail c,
      count_leave_singleton]
    simp

/-- Witness of amended C5: stack `[1]`, screen 1 already left once, batch `[Push(3)]`. -/
theorem leave_once_per_batch_on_old_top_witness :
    (∀ x, List.count (Event.leave x)
        [Event.leave 1, Event.leave 1, Event.setup 3, Event.wakeup_screenswitch]
      ≤ List.count (Event.leave x) [Event.leave 1] + 1) ∧
    (∀ x, List.count (Event.leave x)
        [Event.leave 1, Event.leave 1, Event.setup 3, Event.wakeup_screenswitch]
      ≠ List.count (Event.leave x) [Event.leave 1] →
      [1].getLast? = some x) ∧
    ((∀ a ∈ [(⟨ActionType.PUSH_ACTION, some 3⟩ : Action)],
        a.type ≠ ActionType.QUIT_ACTION) →
      ∀ c, [1].getLast? = some c → [1, 3].getLast? ≠ some c →
        List.count (Event.leave c)
          [Event.leave 1, Event.leave 1, Event.setup 3, Event.wakeup_screenswitch]
        = List.count (Event.leave c) [Event.leave 1] + 1) :=
  leave_once_per_batch_on_old_top Callbacks.quiet
    { m_speed := 1, m_actions := [⟨ActionType.PUSH_ACTION, some 3⟩],
      m_screen_fade := none, m_screen_stack := [1],
      transitions_enabled := true, trace := [Event.leave 1] }
    { m_speed := 1, m_actions := [],
      m_screen_fade := none, m_screen_stack := [1, 3],
      transitions_enabled := true,
      trace := [Event.leave 1, Event.leave 1, Event.setup 3, Event.wakeup_screenswitch] }
    rfl

/-! ## Frame pacing -/

theorem add32_of_lt (a b : Nat) (h : a + b < UINT32) : add32 a b = a + b := by
  unfold add32
  exact Nat.mod_eq_of_lt h

theorem sub32_of_le (a b : Nat) (hb : b ≤ a) (ha : a < UINT32) : sub32 a b = a - b := by
  unfold sub32 UINT32 at *
  omega

theorem mul32_of_lt (a b : Nat) (h : a * b < UINT32) : mul32 a b = a * b := by
  unfold mul32
  exact Nat.mod_eq_of_lt h

theorem sub32_lt (a b : Nat) : sub32 a b < UINT32 := by
  unfold sub32
  exact Nat.mod_lt _ (by decide)

/-- The simulation loop stops only when its condition is false: the passes counted by the
first argument never run out while `frames` is below `MAX_FRAME_SKIP`. -/
theorem simulation_steps_exit (ticks_per_frame fuel elapsed_ticks frames : Nat)
    (hfuel : MAX_FRAME_SKIP ≤ fuel + frames) :
    ¬ ((simulation_steps ticks_per_frame fuel elapsed_ticks frames).1 ≥ ticks_per_frame ∧
       (simulation_steps ticks_per_frame fuel elapsed_ticks frames).2 < MAX_FRAME_SKIP) := by
  induction fuel generalizing elapsed_ticks frames with
  | zero =>
    simp only [simulation_steps]
    omega
  | succ n ih =>
    simp only [simulation_steps]
    split
    · exact ih _ _ (by omega)
    · assumption

/-- The two passes the simulation loop can make from `frames = 0`, spelled out. -/
theorem simulation_steps_two (ticks_per_frame elapsed_ticks : Nat) :
    simulation_steps ticks_per_frame MAX_FRAME_SKIP elapsed_ticks 0 =
      if ticks_per_frame ≤ elapsed_ticks then
        if ticks_per_frame ≤ sub32 elapsed_ticks ticks_per_frame then
          (sub32 (sub32 elapsed_ticks ticks_per_frame) ticks_per_frame, 2)
        else (sub32 elapsed_ticks ticks_per_frame, 1)
      else (elapsed_ticks, 0) := by
  simp [simulation_steps, MAX_FRAME_SKIP]

/-- C8, as stated, fails: with `ticks_per_frame = 16`, a zero remainder and a slice of
`5` ticks the loop sleeps `11` ticks and then performs one simulation step, not none. -/
theorem short_slice_runs_one_step :
    sub32 5 0 < 16 ∧
    (run_iteration 16 5 0 0).delay_ticks = some (16 - 5) ∧
    (run_iteration 16 5 0 0).frames = 1 ∧
    (run_iteration 16 5 0 0).frames ≠ 0 := by
  decide

/-- C8, amended: in an iteration that starts with a zero remainder and observes a slice
`D < ticks_per_frame`, with `4 * ticks_per_frame` below `2^32`, the loop sleeps exactly
`ticks_per_frame - D` ticks and then performs exactly one simulation step, which leaves a
zero remainder. -/
theorem short_slice_sleeps_then_steps (ticks_per_frame ticks last_ticks : Nat)
    (h4 : 4 * ticks_per_frame < UINT32)
    (hD : sub32 ticks last_ticks < ticks_per_frame) :
    (run_iteration ticks_per_frame ticks last_ticks 0).delay_ticks
      = some (ticks_per_frame - sub32 ticks last_ticks) ∧
    (run_iteration ticks_per_frame ticks last_ticks 0).frames = 1 ∧
    (run_iteration ticks_per_frame ticks last_ticks 0).elapsed_ticks = 0 := by
  have hlt := sub32_lt ticks last_ticks
  unfold run_iteration
  generalize sub32 ticks last_ticks = D at hD hlt ⊢
  have h1 : add32 0 D = D := by rw [add32_of_lt _ _ (by omega)]; omega
  have h2 : mul32 ticks_per_frame 4 = ticks_per_frame * 4 :=
    mul32_of_lt _ _ (by omega)
  have h3 : ¬ D > ticks_per_frame * 4 := by omega
  have h5 : sub32 ticks_per_frame D = ticks_per_frame - D :=
    sub32_of_le _ _ (by omega) (by omega)
  have h6 : add32 D (ticks_per_frame - D) = ticks_per_frame := by
    rw [add32_of_lt _ _ (by omega)]; omega
  have h7 : sub32 ticks_per_frame ticks_per_frame = 0 := by
    rw [sub32_of_le _ _ (le_refl _) (by omega)]; omega
  have h8 : ¬ ticks_per_frame ≤ 0 := by omega
  simp only [h1, h2, if_neg h3, if_pos hD, h5, h6, simulation_steps_two, h7, le_refl,
    if_true, if_neg h8]
  exact ⟨trivial, trivial, trivial⟩

/-- Witness of amended C8: `ticks_per_frame = 16`, slice of `5` ticks. -/
theorem short_slice_sleeps_then_steps_witness :
    sub32 5 0 < 16 ∧
    (run_iteration 16 5 0 0).delay_ticks = some (16 - sub32 5 0) ∧
    (run_iteration 16 5 0 0).frames = 1 ∧
    (run_iteration 16 5 0 0).elapsed_ticks = 0 :=
  ⟨by decide, short_slice_sleeps_then_steps 16 5 0 (by decide) (by decide)⟩

/-- C9, as stated, fails at its boundary: with `ticks_per_frame = 10`, a zero remainder
and a slice of exactly `40 = 4 * 10` ticks, the remainder is not reset (the test is
`elapsed_ticks > ticks_per_frame*4`), two steps run and the remainder ends at `20`. -/
theorem four_frames_slice_keeps_remainder :
    sub32 40 0 ≥ 4 * 10 ∧
    (run_iteration 10 40 0 0).frames = 2 ∧
    (run_iteration 10 40 0 0).elapsed_ticks = 20 ∧
    (run_iteration 10 40 0 0).elapsed_ticks ≠ 0 := by
  decide

/-- C9, amended: in an iteration that starts with a zero remainder and observes a slice
`D > 4 * ticks_per_frame` (with `ticks_per_frame > 0` and `4 * ticks_per_frame` below
`2^32`), the remainder at the end of the iteration is 0. -/
theorem long_slice_remainder_zero (ticks_per_frame ticks last_ticks : Nat)
    (h0 : 0 < ticks_per_frame) (h4 : 4 * ticks_per_frame < UINT32)
    (hD : 4 * ticks_per_frame < sub32 ticks last_ticks) :
    (run_iteration ticks_per_frame ticks last_ticks 0).elapsed_ticks = 0 := by
  have hlt := sub32_lt ticks last_ticks
  unfold run_iteration
  generalize sub32 ticks last_ticks = D at hD hlt ⊢
  have h1 : add32 0 D = D := by rw [add32_of_lt _ _ (by omega)]; omega
  have h2 : mul32 ticks_per_frame 4 = ticks_per_frame * 4 :=
    mul32_of_lt _ _ (by omega)
  have h3 : D > ticks_per_frame * 4 := by omega
  have h5 : sub32 ticks_per_frame 0 = ticks_per_frame := by
    rw [sub32_of_le _ _ (by omega) (by omega)]; omega
  have h6 : add32 0 ticks_per_frame = ticks_per_frame := by
    rw [add32_of_lt _ _ (by omega)]; omega
  have h7 : sub32 ticks_per_frame ticks_per_frame = 0 := by
    rw [sub32_of_le _ _ (le_refl _) (by omega)]; omega
  have h8 : ¬ ticks_per_frame ≤ 0 := by omega
  simp only [h1, h2, if_pos h3, if_pos h0, h5, h6, simulation_steps_two, h7, le_refl,
    if_true, if_neg h8]

/-- Witness of amended C9: `ticks_per_frame = 10`, slice of `41` ticks. -/
theorem long_slice_remainder_zero_witness :
    (run_iteration 10 41 0 0).elapsed_ticks = 0 :=
  long_slice_remainder_zero 10 41 0 (by decide) (by decide) (by decide)

/-- C10, as stated, fails when `ticks_per_frame*4` wraps around in `Uint32`: with
`ticks_per_frame = 2^30` and a slice of `2^30` ticks, `ticks_per_frame*4` is `0`, the
remainder is reset and the loop sleeps for `2^30` ticks. -/
theorem one_frame_slice_sleeps_on_wraparound :
    1073741824 ≤ sub32 1073741824 0 ∧ sub32 1073741824 0 < 2 * 1073741824 ∧
    mul32 1073741824 4 = 0 ∧
    (run_iteration 1073741824 1073741824 0 0).delay_ticks = some 1073741824 ∧
    (run_iteration 1073741824 1073741824 0 0).delay_ticks ≠ none := by
  decide

/-- C10, amended: in an iteration that starts with a zero remainder and observes a slice
`D` with `ticks_per_frame <= D < 2 * ticks_per_frame`, and with `4 * ticks_per_frame` below
`2^32`, exactly one simulation step is performed and no sleep occurs. -/
theorem one_frame_slice_one_step (ticks_per_frame ticks last_ticks : Nat)
    (h4 : 4 * ticks_per_frame < UINT32)
    (hlo : ticks_per_frame ≤ sub32 ticks last_ticks)
    (hhi : sub32 ticks last_ticks < 2 * ticks_per_frame) :
    (run_iteration ticks_per_frame ticks last_ticks 0).frames = 1 ∧
    (run_iteration ticks_per_frame ticks last_ticks 0).delay_ticks = none := by
  have hlt := sub32_lt ticks last_ticks
  unfold run_iteration
  generalize sub32 ticks last_ticks = D at hlo hhi hlt ⊢
  have h1 : add32 0 D = D := by rw [add32_of_lt _ _ (by omega)]; omega
  have h2 : mul32 ticks_per_frame 4 = ticks_per_frame * 4 :=
    mul32_of_lt _ _ (by omega)
  have h3 : ¬ D > ticks_per_frame * 4 := by omega
  have h5 : ¬ D < ticks_per_frame := by omega
  have h6 : sub32 D ticks_per_frame = D - ticks_per_frame :=
    sub32_of_le _ _ hlo hlt
  have h7 : ¬ ticks_per_frame ≤ D - ticks_per_frame := by omega
  simp only [h1, h2, if_neg h3, if_neg h5, h6, simulation_steps_two, if_pos hlo, if_neg h7]
  exact ⟨trivial, trivial⟩

/-- Witness of amended C10: `ticks_per_frame = 16`, slice of `20` ticks. -/
theorem one_frame_slice_one_step_witness :
    (run_iteration 16 20 0 0).frames = 1 ∧ (run_iteration 16 20 0 0).delay_ticks = none :=
  one_frame_slice_one_step 16 20 0 (by decide) (by decide) (by decide)

/-! ## More on batches: single actions, failure, the first batch -/

theorem apply_actions_append (env : Callbacks) (pre rest : List Action) (st : SwitchState) :
    apply_actions env st (pre ++ rest) =
      match apply_actions env st pre with
      | Except.error e => Except.error e
      | Except.ok st1 => apply_actions env st1 rest := by
  induction pre generalizing st with
  | nil => rfl
  | cons a tl ih =>
    simp only [List.cons_append, apply_actions]
    cases apply_action env st a with
    | error e => rfl
    | ok st2 => exact ih st2

/-- A Pop that finds `current_screen` at the back of the stack: `leave()`, then the pop. -/
theorem apply_action_pop_current (env : Callbacks) (st : SwitchState) (a : Action)
    (back : Screen) (ha : a.type = ActionType.POP_ACTION)
    (hl : st.mgr.m_screen_stack.getLast? = some back)
    (hc : st.current_screen = some back) :
    apply_action env st a = Except.ok
      { mgr := { call_leave env back st.mgr with
                 m_screen_stack := st.mgr.m_screen_stack.dropLast },
        current_screen := none,
        quit_action_triggered := st.quit_action_triggered } := by
  simp [apply_action, ha, hl, hc, call_leave_stack]

theorem apply_action_push (env : Callbacks) (st : SwitchState) (a : Action) (s : Screen)
    (ha : a.type = ActionType.PUSH_ACTION) (hs : a.screen = some s) :
    apply_action env st a = Except.ok
      { st with mgr := { st.mgr with m_screen_stack := st.mgr.m_screen_stack ++ [s] } } := by
  simp [apply_action, ha, hs]

theorem apply_action_quit (env : Callbacks) (st : SwitchState) (a : Action)
    (ha : a.type = ActionType.QUIT_ACTION) :
    apply_action env st a = Except.ok
      { st with mgr := { st.mgr with m_screen_stack := [] },
                current_screen := none,
                quit_action_triggered := true } := by
  simp [apply_action, ha]

/-- A Pop reached with an empty stack fails `assert(!m_screen_stack.empty())`. -/
theorem apply_action_pop_empty (env : Callbacks) (st : SwitchState) (a : Action)
    (ha : a.type = ActionType.POP_ACTION) (hl : st.mgr.m_screen_stack = []) :
    apply_action env st a = Except.error Failure.assert_stack_not_empty := by
  simp [apply_action, ha, hl]

/-- With a screen on top and no Quit seen, the code after the `for` loop completes and
leaves the stack as the loop left it. -/
theorem finish_batch_ok_of_top (env : Callbacks) (st : SwitchState) (back : Screen)
    (hq : st.quit_action_triggered = false)
    (hl : st.mgr.m_screen_stack.getLast? = some back) :
    ∃ m1, finish_batch env st = Except.ok m1 ∧
      m1.m_screen_stack = st.mgr.m_screen_stack := by
  by_cases hc : st.current_screen = some back
  · exact ⟨st.mgr, finish_batch_same_top env st back hq hl hc, rfl⟩
  · obtain ⟨m1, h1, _, h2, _⟩ := finish_batch_new_top env st back hq hl hc
    exact ⟨m1, h1, h2⟩

/-- A batch whose Push actions carry a screen and in which no Pop meets an empty stack has
a stack effect: nothing else fails. -/
theorem stack_fold_ok_of_no_empty_pop (actions : List Action) (stack : List Screen)
    (hwf : pushes_carry_screen actions)
    (hpop : ¬ pop_meets_empty_stack stack actions) :
    ∃ stack1, stack_fold stack actions = Except.ok stack1 := by
  induction actions generalizing stack with
  | nil => exact ⟨stack, rfl⟩
  | cons a rest ih =>
    have hwf1 : pushes_carry_screen rest :=
      fun b hb => hwf b (List.mem_cons_of_mem _ hb)
    have hstep : ∃ stack2, stack_step stack a = Except.ok stack2 := by
      unfold stack_step
      cases hty : a.type with
      | PUSH_ACTION =>
        cases hs : a.screen with
        | none => exact absurd hs (hwf a (List.mem_cons_self _ _) hty)
        | some s => exact ⟨_, rfl⟩
      | POP_ACTION =>
        cases hst : stack with
        | nil =>
          exfalso
          exact hpop ⟨[], a, rest, rfl, hty, by rw [hst]; rfl⟩
        | cons x xs => exact ⟨_, rfl⟩
      | QUIT_ACTION => exact ⟨_, rfl⟩
    obtain ⟨stack2, h2⟩ := hstep
    have hpop1 : ¬ pop_meets_empty_stack stack2 rest := by
      rintro ⟨pre, b, post, hdec, hb, hfold⟩
      refine hpop ⟨a :: pre, b, post, by rw [hdec]; rfl, hb, ?_⟩
      simp only [stack_fold, h2]
      exact hfold
    obtain ⟨stack1, h1⟩ := ih stack2 hwf1 hpop1
    exact ⟨stack1, by simp only [stack_fold, h2]; exact h1⟩

/-- The enqueue functions keep the queue well formed: a Push they append carries a
screen. -/
theorem perform_pushes_carry_screen (m : ScreenManager) (c : Call)
    (h : pushes_carry_screen m.m_actions) :
    pushes_carry_screen (perform m c).m_actions := by
  cases c with
  | push_screen s f =>
    intro a ha hty
    rcases List.mem_append.1 ha with ha | ha
    · exact h a ha hty
    · rw [List.mem_singleton.1 ha]; simp
  | pop_screen f =>
    intro a ha hty
    rcases List.mem_append.1 ha with ha | ha
    · exact h a ha hty
    · rw [List.mem_singleton.1 ha] at hty; cases hty
  | quit f =>
    intro a ha hty
    rcases List.mem_append.1 ha with ha | ha
    · exact h a ha hty
    · rw [List.mem_singleton.1 ha] at hty; cases hty
  | set_screen_fade f => exact h
  | set_speed v => exact h

theorem push_screen_pushes_carry_screen (m m1 : ScreenManager) (screen : Option Screen)
    (f : Option ScreenFade) (h : pushes_carry_screen m.m_actions)
    (hp : push_screen m screen f = Except.ok m1) :
    pushes_carry_screen m1.m_actions := by
  cases screen with
  | none => cases hp
  | some s =>
    injection hp with hp
    rw [← hp]
    exact perform_pushes_carry_screen m (Call.push_screen s f) h

theorem switch_loop_no_actions (env : Callbacks) (fuel : Nat) (m : ScreenManager)
    (h : m.m_actions = []) : switch_loop env fuel m = Except.ok m := by
  cases fuel <;> simp [switch_loop, h]

/-- With no unfinished fade and a pending action, `handle_screen_switch` drops the fade,
runs one batch and goes on with the loop. -/
theorem handle_screen_switch_first_batch (env : Callbacks) (fuel : Nat) (m : ScreenManager)
    (hfade : has_pending_fadeout m = false) (hact : m.m_actions ≠ []) :
    handle_screen_switch env (fuel + 1) m =
      match process_batch env { m with m_screen_fade := none } with
      | Except.error e => Except.error e
      | Except.ok m1 => switch_loop env fuel m1 := by
  have hne : ({ m with m_screen_fade := none } : ScreenManager).m_actions.isEmpty = false := by
    cases hm : m.m_actions with
    | nil => exact absurd hm hact
    | cons a rest => rfl
  simp only [handle_screen_switch, hfade, switch_loop, hne]
  rfl

theorem run_loop_empty_stack (env : Callbacks) (w : World) (sfuel fuel n : Nat)
    (st : RunState) (h : st.mgr.m_screen_stack = []) :
    run_loop env w sfuel fuel n st = Except.ok st := by
  cases fuel <;> simp [run_loop, h]

/-- The loop of `run` is left through its condition only: it returns with an empty
stack. -/
theorem run_loop_returns_empty (env : Callbacks) (w : World) (sfuel fuel n : Nat)
    (st st1 : RunState) (h : run_loop env w sfuel fuel n st = Except.ok st1) :
    st1.mgr.m_screen_stack = [] := by
  induction fuel generalizing n st with
  | zero =>
    simp only [run_loop] at h
    split at h
    · injection h with h
      subst h
      simpa using ‹st.mgr.m_screen_stack.isEmpty = true›
    · cases h
  | succ k ih =>
    simp only [run_loop] at h
    split at h
    · injection h with h
      subst h
      simpa using ‹st.mgr.m_screen_stack.isEmpty = true›
    · cases hb : run_body env w sfuel n st with
      | error e => rw [hb] at h; cases h
      | ok st2 =>
        rw [hb] at h
        exact ih (n + 1) st2 h

theorem simulate_stack (w : World) (n ticks_per_frame fuel elapsed_ticks frames : Nat)
    (m : ScreenManager) :
    (simulate w n ticks_per_frame fuel elapsed_ticks frames m).2.2.m_screen_stack
      = m.m_screen_stack := by
  induction fuel generalizing elapsed_ticks frames m with
  | zero => rfl
  | succ k ih =>
    simp only [simulate]
    split
    · rw [ih]
      simp [update_gamelogic, process_events, calls_stack]
    · rfl

theorem guarded_draw_stack (w : World) (n : Nat) (m m1 : ScreenManager)
    (h : (if !m.m_screen_stack.isEmpty then draw w n m else Except.ok m) = Except.ok m1) :
    m1.m_screen_stack = m.m_screen_stack := by
  unfold draw at h
  cases hm : m.m_screen_stack.isEmpty
  · simp only [hm, Bool.not_false, if_true] at h
    simp only [Bool.false_eq_true, if_false] at h
    injection h with h
    rw [← h, calls_stack]
  · simp only [hm, Bool.not_true, Bool.false_eq_true, if_false] at h
    injection h with h
    rw [← h]

/-- Nothing before the closing `handle_screen_switch()` of an iteration changes the
stack. -/
theorem before_switch_stack (w : World) (n : Nat) (st st1 : RunState)
    (h : before_switch w n st = Except.ok st1) :
    st1.mgr.m_screen_stack = st.mgr.m_screen_stack := by
  unfold before_switch at h
  simp only at h
  split at h
  · cases h
  · rename_i m1 hd
    injection h with h
    subst h
    simp only
    rw [guarded_draw_stack w n _ m1 hd, simulate_stack]

/-- A batch `[Pop, Push(s)]` on a stack whose top is `back`: the top is left and popped,
`s` is pushed and set up. -/
theorem pop_push_batch (env : Callbacks) (m0 : ScreenManager) (back s : Screen)
    (a1 a2 : Action) (h1t : a1.type = ActionType.POP_ACTION)
    (h2t : a2.type = ActionType.PUSH_ACTION) (h2s : a2.screen = some s)
    (hl0 : m0.m_screen_stack.getLast? = some back)
    (hact : m0.m_actions = [a1, a2]) :
    ∃ m1, process_batch env m0 = Except.ok m1 ∧
      m1.m_screen_stack = m0.m_screen_stack.dropLast ++ [s] ∧
      m1.trace = m0.trace ++ [Event.leave back, Event.setup s,
        Event.wakeup_screenswitch] := by
  have h1 := apply_action_pop_current env (batch_start m0) a1 back h1t hl0 hl0
  obtain ⟨st1, hst1⟩ : ∃ st1 : SwitchState, st1 =
      { mgr := { call_leave env back (batch_start m0).mgr with
          m_screen_stack := (batch_start m0).mgr.m_screen_stack.dropLast },
        current_screen := none,
        quit_action_triggered := (batch_start m0).quit_action_triggered } := ⟨_, rfl⟩
  rw [← hst1] at h1
  have h2 := apply_action_push env st1 a2 s h2t h2s
  obtain ⟨st2, hst2⟩ : ∃ st2 : SwitchState, st2 =
      { st1 with mgr := { st1.mgr with
          m_screen_stack := st1.mgr.m_screen_stack ++ [s] } } := ⟨_, rfl⟩
  rw [← hst2] at h2
  have hloop : apply_actions env (batch_start m0) [a1, a2] = Except.ok st2 := by
    simp only [apply_actions, h1, h2]
  have hq : st2.quit_action_triggered = false := by
    rw [hst2, hst1]; rfl
  have hcur : st2.current_screen = none := by
    rw [hst2, hst1]
  have hstk : st2.mgr.m_screen_stack = m0.m_screen_stack.dropLast ++ [s] := by
    rw [hst2, hst1]; rfl
  have htr : st2.mgr.trace = m0.trace ++ [Event.leave back] := by
    rw [hst2, hst1]
    show (call_leave env back (batch_start m0).mgr).trace = _
    rw [call_leave_trace]; rfl
  have hl : st2.mgr.m_screen_stack.getLast? = some s := by
    rw [hstk]; simp
  have hc : st2.current_screen ≠ some s := by
    rw [hcur]; simp
  obtain ⟨m1, hm1, _, hs, ht⟩ := finish_batch_new_top env st2 s hq hl hc
  refine ⟨m1, ?_, hs.trans hstk, ?_⟩
  · rw [process_batch_eq, hact, hloop]
    exact hm1
  · rw [ht, leave_current_trace, hcur, htr]
    simp

/-! ## Scenarios and failures of reconciliation -/

/-- C11: for all distinct screens `A`, `B`, `C`, from the stack `[A, B]` with no unfinished
fade and the pending queue `[Pop, Push(C)]`, the first batch of `handle_screen_switch`
completes with the stack `[A, C]`; it calls `leave()` on `B`, then `setup()` on `C`, then
`wakeup_screenswitch()`, and nothing else: `leave()` on `B` once, `setup()` on `C` once,
neither `leave()` nor `setup()` on `A`. -/
theorem pop_then_push_scenario (env : Callbacks) (m : ScreenManager) (A B C : Screen)
    (fuel : Nat) (hAB : A ≠ B) (hAC : A ≠ C) (_hBC : B ≠ C)
    (hfade : has_pending_fadeout m = false)
    (hstack : m.m_screen_stack = [A, B])
    (hact : m.m_actions
      = [⟨ActionType.POP_ACTION, none⟩, ⟨ActionType.PUSH_ACTION, some C⟩]) :
    ∃ m1, process_batch env { m with m_screen_fade := none } = Except.ok m1 ∧
      handle_screen_switch env (fuel + 1) m = switch_loop env fuel m1 ∧
      m1.m_screen_stack = [A, C] ∧
      m1.trace = m.trace ++ [Event.leave B, Event.setup C, Event.wakeup_screenswitch] ∧
      List.count (Event.leave B) m1.trace = List.count (Event.leave B) m.trace + 1 ∧
      List.count (Event.setup C) m1.trace = List.count (Event.setup C) m.trace + 1 ∧
      List.count (Event.leave A) m1.trace = List.count (Event.leave A) m.trace ∧
      List.count (Event.setup A) m1.trace = List.count (Event.setup A) m.trace := by
  obtain ⟨m1, hb, hs, ht⟩ := pop_push_batch env { m with m_screen_fade := none } B C
    ⟨ActionType.POP_ACTION, none⟩ ⟨ActionType.PUSH_ACTION, some C⟩ rfl rfl rfl
    (by show m.m_screen_stack.getLast? = some B; rw [hstack]; rfl) hact
  have hs1 : m1.m_screen_stack = [A, C] := by
    rw [hs]
    show m.m_screen_stack.dropLast ++ [C] = [A, C]
    rw [hstack]; rfl
  have ht1 : m1.trace
      = m.trace ++ [Event.leave B, Event.setup C, Event.wakeup_screenswitch] := ht
  refine ⟨m1, hb, ?_, hs1, ht1, ?_, ?_, ?_, ?_⟩
  · rw [handle_screen_switch_first_batch env fuel m hfade (by rw [hact]; simp), hb]
  · rw [ht1, List.count_append]
    simp [List.count_cons]
  · rw [ht1, List.count_append]
    simp [List.count_cons]
  · rw [ht1, List.count_append]
    simp [List.count_cons, hAB.symm]
  · rw [ht1, List.count_append]
    simp [List.count_cons, hAC.symm]

/-- Witness of C11: screens `1`, `2`, `3`. -/
theorem pop_then_push_scenario_witness :
    ∃ m1, process_batch Callbacks.quiet
        { m_speed := 1,
          m_actions := [⟨ActionType.POP_ACTION, none⟩, ⟨ActionType.PUSH_ACTION, some 3⟩],
          m_screen_fade := none, m_screen_stack := [1, 2],
          transitions_enabled := true, trace := [Event.setup 1, Event.setup 2] }
        = Except.ok m1 ∧
      handle_screen_switch Callbacks.quiet (0 + 1)
        { m_speed := 1,
          m_actions := [⟨ActionType.POP_ACTION, none⟩, ⟨ActionType.PUSH_ACTION, some 3⟩],
          m_screen_fade := some ⟨7, true⟩, m_screen_stack := [1, 2],
          transitions_enabled := true, trace := [Event.setup 1, Event.setup 2] }
        = switch_loop Callbacks.quiet 0 m1 ∧
      m1.m_screen_stack = [1, 3] ∧
      m1.trace = [Event.setup 1, Event.setup 2] ++
        [Event.leave 2, Event.setup 3, Event.wakeup_screenswitch] ∧
      List.count (Event.leave 2) m1.trace
        = List.count (Event.leave 2) [Event.setup 1, Event.setup 2] + 1 ∧
      List.count (Event.setup 3) m1.trace
        = List.count (Event.setup 3) [Event.setup 1, Event.setup 2] + 1 ∧
      List.count (Event.leave 1) m1.trace
        = List.count (Event.leave 1) [Event.setup 1, Event.setup 2] ∧
      List.count (Event.setup 1) m1.trace
        = List.count (Event.setup 1) [Event.setup 1, Event.setup 2] :=
  pop_then_push_scenario Callbacks.quiet
    { m_speed := 1,
      m_actions := [⟨ActionType.POP_ACTION, none⟩, ⟨ActionType.PUSH_ACTION, some 3⟩],
      m_screen_fade := some ⟨7, true⟩, m_screen_stack := [1, 2],
      transitions_enabled := true, trace := [Event.setup 1, Event.setup 2] }
    1 2 3 0 (by decide) (by decide) (by decide) rfl rfl rfl

/-- A batch that is a single Quit: the stack is cleared, nothing is called, nothing is
enqueued. -/
theorem single_quit_batch (env : Callbacks) (m0 : ScreenManager) (q : Action)
    (hq : q.type = ActionType.QUIT_ACTION) (hact : m0.m_actions = [q]) :
    process_batch env m0
      = Except.ok { m0 with m_actions := [], m_screen_stack := [] } := by
  rw [process_batch_eq, hact]
  simp only [apply_actions, apply_action_quit env _ q hq]
  exact finish_batch_quit env _ rfl

/-- C12: with no unfinished fade and a pending queue that is a single Quit, the next
`handle_screen_switch` returns with the stack empty and the queue empty and has called
neither `setup()` nor anything else on a screen; from that state the loop of `run` returns
at once, and an iteration of `run` that reaches its `handle_screen_switch()` in such a
state is the last one. Conversely, whenever `run` returns, the stack is empty. -/
theorem single_quit_ends_run (env : Callbacks) (w : World) (m : ScreenManager)
    (q : Action) (sfuel : Nat)
    (hne : m.m_screen_stack ≠ [])
    (hfade : has_pending_fadeout m = false)
    (hq : q.type = ActionType.QUIT_ACTION) (hact : m.m_actions = [q]) :
    (∃ m1, handle_screen_switch env (sfuel + 1) m = Except.ok m1 ∧
      m1.m_screen_stack = [] ∧ m1.m_actions = [] ∧ m1.trace = m.trace ∧
      (∀ fuel n last_ticks elapsed_ticks,
        run_loop env w (sfuel + 1) fuel n
            { mgr := m1, last_ticks := last_ticks, elapsed_ticks := elapsed_ticks }
          = Except.ok
            { mgr := m1, last_ticks := last_ticks, elapsed_ticks := elapsed_ticks }) ∧
      (∀ fuel n st st1, before_switch w n st = Except.ok st1 → st1.mgr = m →
        run_loop env w (sfuel + 1) (fuel + 1) n st
          = Except.ok { st1 with mgr := m1 })) ∧
    (∀ sfuel1 fuel m0 st, run env w sfuel1 fuel m0 = Except.ok st →
      st.mgr.m_screen_stack = []) := by
  have hbatch := single_quit_batch env { m with m_screen_fade := none } q hq hact
  have hss : handle_screen_switch env (sfuel + 1) m
      = Except.ok { m with m_screen_fade := none, m_actions := [], m_screen_stack := [] } := by
    rw [handle_screen_switch_first_batch env sfuel m hfade (by rw [hact]; simp), hbatch]
    exact switch_loop_no_actions env sfuel _ rfl
  refine ⟨⟨_, hss, rfl, rfl, rfl, ?_, ?_⟩, ?_⟩
  · intro fuel n last_ticks elapsed_ticks
    exact run_loop_empty_stack env w _ fuel n _ rfl
  · intro fuel n st st1 hb hm
    have hst : st.mgr.m_screen_stack.isEmpty = false := by
      have := before_switch_stack w n st st1 hb
      rw [hm] at this
      cases hs : st.mgr.m_screen_stack with
      | nil => rw [hs] at this; exact absurd this hne
      | cons x xs => rfl
    simp only [run_loop, hst, run_body, hb, hm, hss]
    exact run_loop_empty_stack env w _ fuel (n + 1) _ rfl
  · intro sfuel1 fuel m0 st h
    unfold run at h
    cases h0 : handle_screen_switch env sfuel1 m0 with
    | error e => rw [h0] at h; cases h
    | ok m1 =>
      rw [h0] at h
      exact run_loop_returns_empty env w sfuel1 fuel 0 _ st h

/-- Witness of C12: the stack `[1, 2, 3]` and the queue that `quit()` leaves. -/
theorem single_quit_ends_run_witness :
    (∃ m1, handle_screen_switch Callbacks.quiet (0 + 1)
        (quit { m_speed := 1, m_actions := [], m_screen_fade := none,
                m_screen_stack := [1, 2, 3], transitions_enabled := true, trace := [] }
          none) = Except.ok m1 ∧
      m1.m_screen_stack = [] ∧ m1.m_actions = [] ∧
      m1.trace =
        (quit { m_speed := 1, m_actions := [], m_screen_fade := none,
                m_screen_stack := [1, 2, 3], transitions_enabled := true, trace := [] }
          none).trace ∧
      (∀ fuel n last_ticks elapsed_ticks,
        run_loop Callbacks.quiet World.idle (0 + 1) fuel n
            { mgr := m1, last_ticks := last_ticks, elapsed_ticks := elapsed_ticks }
          = Except.ok
            { mgr := m1, last_ticks := last_ticks, elapsed_ticks := elapsed_ticks }) ∧
      (∀ fuel n st st1, before_switch World.idle n st = Except.ok st1 →
        st1.mgr =
          quit { m_speed := 1, m_actions := [], m_screen_fade := none,
                 m_screen_stack := [1, 2, 3], transitions_enabled := true, trace := [] }
            none →
        run_loop Callbacks.quiet World.idle (0 + 1) (fuel + 1) n st
          = Except.ok { st1 with mgr := m1 })) ∧
    (∀ sfuel1 fuel m0 st, run Callbacks.quiet World.idle sfuel1 fuel m0 = Except.ok st →
      st.mgr.m_screen_stack = []) :=
  single_quit_ends_run Callbacks.quiet World.idle _ ⟨ActionType.QUIT_ACTION, none⟩ 0
    (by decide) rfl rfl rfl

/-- C13: when a batch reaches a Pop action while the stack is empty, the batch, and with
it `handle_screen_switch`, fails `assert(!m_screen_stack.empty())`: the Pop is not skipped
and there is no normal return. When the Push actions of a batch carry a screen, no Pop
meets an empty stack, the batch has no Quit and the stack is not empty at its end, the
batch completes without a failure. -/
theorem pop_on_empty_stack_fails (env : Callbacks) :
    (∀ m : ScreenManager, pop_meets_empty_stack m.m_screen_stack m.m_actions →
      process_batch env m = Except.error Failure.assert_stack_not_empty ∧
      (has_pending_fadeout m = false → ∀ fuel,
        handle_screen_switch env (fuel + 1) m
          = Except.error Failure.assert_stack_not_empty)) ∧
    (∀ m : ScreenManager, pushes_carry_screen m.m_actions →
      ¬ pop_meets_empty_stack m.m_screen_stack m.m_actions →
      (∀ a ∈ m.m_actions, a.type ≠ ActionType.QUIT_ACTION) →
      (∀ stack1, stack_fold m.m_screen_stack m.m_actions = Except.ok stack1 →
        stack1 ≠ []) →
      ∃ m1, process_batch env m = Except.ok m1 ∧
        stack_fold m.m_screen_stack m.m_actions = Except.ok m1.m_screen_stack) := by
  have hfail : ∀ m : ScreenManager, pop_meets_empty_stack m.m_screen_stack m.m_actions →
      process_batch env m = Except.error Failure.assert_stack_not_empty := by
    rintro m ⟨pre, a, post, hdec, ha, hpre⟩
    obtain ⟨st1, h1, h1s⟩ := apply_actions_of_stack_fold env pre (batch_start m) [] hpre
    rw [process_batch_eq, hdec, apply_actions_append, h1]
    simp only [apply_actions, apply_action_pop_empty env st1 a ha h1s]
  refine ⟨fun m hm => ⟨hfail m hm, fun hfade fuel => ?_⟩, ?_⟩
  · have hne : m.m_actions ≠ [] := by
      obtain ⟨pre, a, post, hdec, _, _⟩ := hm
      rw [hdec]; simp
    rw [handle_screen_switch_first_batch env fuel m hfade hne,
      hfail { m with m_screen_fade := none } hm]
  · intro m hwf hpop hnq hend
    obtain ⟨stack1, hfold⟩ := stack_fold_ok_of_no_empty_pop m.m_actions m.m_screen_stack
      hwf hpop
    obtain ⟨st1, h1, h1s⟩ := apply_actions_of_stack_fold env m.m_actions (batch_start m)
      stack1 hfold
    have hq : st1.quit_action_triggered = false :=
      apply_actions_no_quit env _ _ st1 h1 hnq
    have hne := hend stack1 hfold
    obtain ⟨back, hback⟩ : ∃ back, st1.mgr.m_screen_stack.getLast? = some back := by
      rw [h1s]
      cases hs : stack1.getLast? with
      | none => exact absurd (List.getLast?_eq_none_iff.1 hs) hne
      | some b => exact ⟨b, rfl⟩
    obtain ⟨m1, hm1, hstk⟩ := finish_batch_ok_of_top env st1 back hq hback
    refine ⟨m1, ?_, ?_⟩
    · rw [process_batch_eq, h1]; exact hm1
    · rw [hstk, h1s]; exact hfold

/-- Witness of C13: on the stack `[1]` the batch `[Pop, Pop]` fails at its second Pop, and
the batch `[Pop, Push(2)]` completes with the stack `[2]`. -/
theorem pop_on_empty_stack_fails_witness :
    process_batch Callbacks.quiet
        { m_speed := 1,
          m_actions := [⟨ActionType.POP_ACTION, none⟩, ⟨ActionType.POP_ACTION, none⟩],
          m_screen_fade := none, m_screen_stack := [1],
          transitions_enabled := true, trace := [] }
      = Except.error Failure.assert_stack_not_empty ∧
    ∃ m1, process_batch Callbacks.quiet
        { m_speed := 1,
          m_actions := [⟨ActionType.POP_ACTION, none⟩, ⟨ActionType.PUSH_ACTION, some 2⟩],
          m_screen_fade := none, m_screen_stack := [1],
          transitions_enabled := true, trace := [] } = Except.ok m1 ∧
      stack_fold [1] [⟨ActionType.POP_ACTION, none⟩, ⟨ActionType.PUSH_ACTION, some 2⟩]
        = Except.ok m1.m_screen_stack :=
  ⟨((pop_on_empty_stack_fails Callbacks.quiet).1
      { m_speed := 1,
        m_actions := [⟨ActionType.POP_ACTION, none⟩, ⟨ActionType.POP_ACTION, none⟩],
        m_screen_fade := none, m_screen_stack := [1],
        transitions_enabled := true, trace := [] }
      ⟨[⟨ActionType.POP_ACTION, none⟩], ⟨ActionType.POP_ACTION, none⟩, [], rfl, rfl,
        rfl⟩).1,
   (pop_on_empty_stack_fails Callbacks.quiet).2
      { m_speed := 1,
        m_actions := [⟨ActionType.POP_ACTION, none⟩, ⟨ActionType.PUSH_ACTION, some 2⟩],
        m_screen_fade := none, m_screen_stack := [1],
        transitions_enabled := true, trace := [] }
      (by
        intro a ha hty
        simp only [List.mem_cons, List.mem_singleton, List.not_mem_nil, or_false] at ha
        rcases ha with rfl | rfl
        · cases hty
        · simp)
      (by
        rintro ⟨pre, a, post, hdec, ha, hpre⟩
        match pre, hdec, hpre with
        | [], hdec, hpre => cases hpre
        | [b], hdec, hpre =>
          simp only [List.cons_append, List.nil_append, List.cons.injEq] at hdec
          obtain ⟨_, rfl, _⟩ := hdec
          cases ha
        | b :: c :: rest, hdec, hpre =>
          simp only [List.cons_append, List.cons.injEq] at hdec
          obtain ⟨_, _, hnil⟩ := hdec
          cases rest <;> simp at hnil)
      (by decide)
      (by
        intro stack1 h
        injection h with h
        rw [← h]
        decide)⟩

/-! ## The simulation loop and the remainder -/

/-- What the simulation loop does from `frames = 0` with a remainder that fits `Uint32`:
at most `MAX_FRAME_SKIP` steps, each taking `ticks_per_frame` off the remainder without
underflow, and fewer than two steps only when the remainder ends below
`ticks_per_frame`. -/
theorem simulation_steps_spec (ticks_per_frame elapsed_ticks : Nat)
    (he : elapsed_ticks < UINT32) :
    (simulation_steps ticks_per_frame MAX_FRAME_SKIP elapsed_ticks 0).2 ≤ 2 ∧
    (simulation_steps ticks_per_frame MAX_FRAME_SKIP elapsed_ticks 0).2 * ticks_per_frame
      ≤ elapsed_ticks ∧
    (simulation_steps ticks_per_frame MAX_FRAME_SKIP elapsed_ticks 0).1
      = elapsed_ticks -
        (simulation_steps ticks_per_frame MAX_FRAME_SKIP elapsed_ticks 0).2
          * ticks_per_frame ∧
    ((simulation_steps ticks_per_frame MAX_FRAME_SKIP elapsed_ticks 0).2 < 2 →
      (simulation_steps ticks_per_frame MAX_FRAME_SKIP elapsed_ticks 0).1
        < ticks_per_frame) := by
  rw [simulation_steps_two]
  by_cases h1 : ticks_per_frame ≤ elapsed_ticks
  · have s1 : sub32 elapsed_ticks ticks_per_frame = elapsed_ticks - ticks_per_frame :=
      sub32_of_le _ _ h1 he
    rw [if_pos h1, s1]
    by_cases h2 : ticks_per_frame ≤ elapsed_ticks - ticks_per_frame
    · have s2 : sub32 (elapsed_ticks - ticks_per_frame) ticks_per_frame
          = elapsed_ticks - ticks_per_frame - ticks_per_frame :=
        sub32_of_le _ _ h2 (by omega)
      rw [if_pos h2, s2]
      refine ⟨le_refl _, ?_, ?_, ?_⟩ <;> simp only <;> omega
    · rw [if_neg h2]
      refine ⟨by simp, ?_, ?_, ?_⟩ <;> simp only <;> omega
  · rw [if_neg h1]
    refine ⟨by simp, ?_, ?_, ?_⟩ <;> simp only <;> omega

/-- The simulation loop of `run` keeps time exactly as `simulation_steps` does: what
`process_events` and `update_gamelogic` do to the manager has no effect on it. -/
theorem simulate_timing (w : World) (n ticks_per_frame fuel elapsed_ticks frames : Nat)
    (m : ScreenManager) :
    (simulate w n ticks_per_frame fuel elapsed_ticks frames m).1
      = (simulation_steps ticks_per_frame fuel elapsed_ticks frames).1 ∧
    (simulate w n ticks_per_frame fuel elapsed_ticks frames m).2.1
      = (simulation_steps ticks_per_frame fuel elapsed_ticks frames).2 := by
  induction fuel generalizing elapsed_ticks frames m with
  | zero => exact ⟨rfl, rfl⟩
  | succ k ih =>
    simp only [simulate, simulation_steps]
    split
    · exact ih _ _ _
    · exact ⟨rfl, rfl⟩

/-- The remainder at the end of an iteration, when `ticks_per_frame*4` does not wrap. -/
theorem run_iteration_remainder (ticks_per_frame ticks last_ticks elapsed_ticks : Nat)
    (htpf : ticks_per_frame < 1073741824) :
    (run_iteration ticks_per_frame ticks last_ticks elapsed_ticks).elapsed_ticks
      ≤ 2 * ticks_per_frame := by
  unfold run_iteration
  have hE : add32 elapsed_ticks (sub32 ticks last_ticks) < UINT32 :=
    Nat.mod_lt _ (by decide)
  generalize add32 elapsed_ticks (sub32 ticks last_ticks) = E at hE ⊢
  have hU : UINT32 = 4294967296 := rfl
  have h2 : mul32 ticks_per_frame 4 = ticks_per_frame * 4 :=
    mul32_of_lt _ _ (by omega)
  simp only [h2]
  -- the remainder after the reset
  have hR : (if E > ticks_per_frame * 4 then 0 else E) ≤ ticks_per_frame * 4 ∧
      (if E > ticks_per_frame * 4 then 0 else E) < UINT32 := by
    split <;> omega
  generalize (if E > ticks_per_frame * 4 then 0 else E) = R at hR ⊢
  obtain ⟨hR4, hRU⟩ := hR
  by_cases hs : R < ticks_per_frame
  · have s1 : sub32 ticks_per_frame R = ticks_per_frame - R :=
      sub32_of_le _ _ (by omega) (by omega)
    have s2 : add32 R (ticks_per_frame - R) = ticks_per_frame := by
      rw [add32_of_lt _ _ (by omega)]; omega
    simp only [if_pos hs, s1, s2]
    have := simulation_steps_spec ticks_per_frame ticks_per_frame (by omega)
    omega
  · simp only [if_neg hs]
    obtain ⟨k2, kle, keq, klt⟩ := simulation_steps_spec ticks_per_frame R hRU
    generalize (simulation_steps ticks_per_frame MAX_FRAME_SKIP R 0).2 = k at k2 kle keq klt
    generalize (simulation_steps ticks_per_frame MAX_FRAME_SKIP R 0).1 = e1 at keq klt ⊢
    by_cases hk : k < 2
    · have := klt hk
      omega
    · have hk2 : k = 2 := by omega
      subst hk2
      omega

/-- The time keeping of the body of the loop of `run` is `run_iteration`. -/
theorem before_switch_timing (w : World) (n : Nat) (st st1 : RunState)
    (h : before_switch w n st = Except.ok st1) :
    st1.elapsed_ticks = (run_iteration (w.ticks_per_frame n % UINT32) (w.ticks n % UINT32)
      st.last_ticks st.elapsed_ticks).elapsed_ticks ∧
    st1.last_ticks = (run_iteration (w.ticks_per_frame n % UINT32) (w.ticks n % UINT32)
      st.last_ticks st.elapsed_ticks).last_ticks := by
  unfold before_switch at h
  simp only at h
  split at h
  · cases h
  · injection h with h
    subst h
    simp only [(simulate_timing _ _ _ _ _ _ _).1]
    unfold run_iteration
    simp only
    split_ifs <;> exact ⟨rfl, rfl⟩

theorem run_body_timing (env : Callbacks) (w : World) (sfuel n : Nat) (st st1 : RunState)
    (h : run_body env w sfuel n st = Except.ok st1) :
    st1.elapsed_ticks = (run_iteration (w.ticks_per_frame n % UINT32) (w.ticks n % UINT32)
      st.last_ticks st.elapsed_ticks).elapsed_ticks := by
  unfold run_body at h
  cases hb : before_switch w n st with
  | error e => rw [hb] at h; cases h
  | ok st2 =>
    rw [hb] at h
    simp only at h
    cases hs : handle_screen_switch env sfuel st2.mgr with
    | error e => rw [hs] at h; cases h
    | ok m1 =>
      rw [hs] at h
      injection h with h
      subst h
      exact (before_switch_timing w n st st2 hb).1

/-- C14: in the simulation loop of an iteration of `run`, for every `Uint32` remainder
and every `ticks_per_frame`, the number `k` of steps is at most `MAX_FRAME_SKIP = 2`, the
remainder after the steps is the remainder before them minus `k * ticks_per_frame`, with
`k * ticks_per_frame` at most the remainder before (no underflow), and the loop stops with
`k < 2` only when the remainder is below `ticks_per_frame`. The loop inside `run`, with
its calls, counts the same steps and leaves the same remainder. -/
theorem simulation_steps_bounded (ticks_per_frame elapsed_ticks : Nat)
    (he : elapsed_ticks < UINT32) :
    MAX_FRAME_SKIP = 2 ∧
    (simulation_steps ticks_per_frame MAX_FRAME_SKIP elapsed_ticks 0).2 ≤ MAX_FRAME_SKIP ∧
    (simulation_steps ticks_per_frame MAX_FRAME_SKIP elapsed_ticks 0).2 * ticks_per_frame
      ≤ elapsed_ticks ∧
    (simulation_steps ticks_per_frame MAX_FRAME_SKIP elapsed_ticks 0).1
      = elapsed_ticks -
        (simulation_steps ticks_per_frame MAX_FRAME_SKIP elapsed_ticks 0).2
          * ticks_per_frame ∧
    ((simulation_steps ticks_per_frame MAX_FRAME_SKIP elapsed_ticks 0).2 < 2 →
      (simulation_steps ticks_per_frame MAX_FRAME_SKIP elapsed_ticks 0).1
        < ticks_per_frame) ∧
    (∀ (w : World) (n : Nat) (m : ScreenManager),
      (simulate w n ticks_per_frame MAX_FRAME_SKIP elapsed_ticks 0 m).1
        = (simulation_steps ticks_per_frame MAX_FRAME_SKIP elapsed_ticks 0).1 ∧
      (simulate w n ticks_per_frame MAX_FRAME_SKIP elapsed_ticks 0 m).2.1
        = (simulation_steps ticks_per_frame MAX_FRAME_SKIP elapsed_ticks 0).2) := by
  obtain ⟨a, b, c, d⟩ := simulation_steps_spec ticks_per_frame elapsed_ticks he
  exact ⟨rfl, a, b, c, d, fun w n m => simulate_timing w n _ _ _ _ m⟩

/-- Witness of C14: `ticks_per_frame = 16` and a remainder of `50` ticks give two steps
and leave `18` ticks. -/
theorem simulation_steps_bounded_witness :
    MAX_FRAME_SKIP = 2 ∧
    (simulation_steps 16 MAX_FRAME_SKIP 50 0).2 ≤ MAX_FRAME_SKIP ∧
    (simulation_steps 16 MAX_FRAME_SKIP 50 0).2 * 16 ≤ 50 ∧
    (simulation_steps 16 MAX_FRAME_SKIP 50 0).1
      = 50 - (simulation_steps 16 MAX_FRAME_SKIP 50 0).2 * 16 ∧
    ((simulation_steps 16 MAX_FRAME_SKIP 50 0).2 < 2 →
      (simulation_steps 16 MAX_FRAME_SKIP 50 0).1 < 16) ∧
    (∀ (w : World) (n : Nat) (m : ScreenManager),
      (simulate w n 16 MAX_FRAME_SKIP 50 0 m).1
        = (simulation_steps 16 MAX_FRAME_SKIP 50 0).1 ∧
      (simulate w n 16 MAX_FRAME_SKIP 50 0 m).2.1
        = (simulation_steps 16 MAX_FRAME_SKIP 50 0).2) :=
  simulation_steps_bounded 16 50 (by decide)

/-- C16: for every wall-clock reading and every prior remainder, with `ticks_per_frame`
below `2^30`, the remainder `elapsed_ticks` at the end of an iteration of `run` is at most
`2 * ticks_per_frame`; so is the remainder every completed pass through the body of the
loop of `run` leaves. -/
theorem remainder_at_most_two_frames (ticks_per_frame ticks last_ticks elapsed_ticks : Nat)
    (htpf : ticks_per_frame < 1073741824) :
    (run_iteration ticks_per_frame ticks last_ticks elapsed_ticks).elapsed_ticks
      ≤ 2 * ticks_per_frame ∧
    (∀ (env : Callbacks) (w : World) (sfuel n : Nat) (st st1 : RunState),
      w.ticks_per_frame n = ticks_per_frame →
      run_body env w sfuel n st = Except.ok st1 →
      st1.elapsed_ticks ≤ 2 * ticks_per_frame) := by
  refine ⟨run_iteration_remainder _ _ _ _ htpf, ?_⟩
  intro env w sfuel n st st1 hw h
  rw [run_body_timing env w sfuel n st st1 h]
  have hmod : w.ticks_per_frame n % UINT32 = ticks_per_frame := by
    rw [hw]
    exact Nat.mod_eq_of_lt (by unfold UINT32; omega)
  rw [hmod]
  exact run_iteration_remainder _ _ _ _ htpf

/-- Witness of C16: `ticks_per_frame = 16`, a stall of `1000000` ticks on top of a
remainder of `31` ticks. -/
theorem remainder_at_most_two_frames_witness :
    (run_iteration 16 1000000 0 31).elapsed_ticks ≤ 2 * 16 ∧
    (∀ (env : Callbacks) (w : World) (sfuel n : Nat) (st st1 : RunState),
      w.ticks_per_frame n = 16 →
      run_body env w sfuel n st = Except.ok st1 →
      st1.elapsed_ticks ≤ 2 * 16) :=
  remainder_at_most_two_frames 16 1000000 0 31 (by decide)

/-! ## `Controller` -/

/-- The copy loop of `update`, run over any list of indices: `controls` is untouched and
`oldControls` takes the value of `controls` at every index of the list. -/
theorem update_loop_spec {n : Nat} (l : List (Fin n)) (c : Controller n) :
    (l.foldl (fun c i =>
        { c with oldControls := Function.update c.oldControls i (c.controls i) }) c).controls
      = c.controls ∧
    ∀ j, (l.foldl (fun c i =>
        { c with oldControls := Function.update c.oldControls i (c.controls i) })
          c).oldControls j
      = if j ∈ l then c.controls j else c.oldControls j := by
  induction l generalizing c with
  | nil => exact ⟨rfl, fun j => by simp⟩
  | cons i rest ih =>
    simp only [List.foldl_cons]
    obtain ⟨h1, h2⟩ :=
      ih { c with oldControls := Function.update c.oldControls i (c.controls i) }
    refine ⟨h1, fun j => ?_⟩
    rw [h2 j]
    by_cases hj : j ∈ rest
    · simp [hj]
    · by_cases hji : j = i
      · subst hji
        simp [hj]
      · simp [hj, hji, Function.update_noteq hji]

theorem update_controls {n : Nat} (c : Controller n) : c.update.controls = c.controls :=
  (update_loop_spec (List.finRange n) c).1

theorem update_oldControls {n : Nat} (c : Controller n) (j : Fin n) :
    c.update.oldControls j = c.controls j := by
  have h := (update_loop_spec (List.finRange n) c).2 j
  simp only [List.mem_finRange, if_true] at h
  exact h

/-- C17: for every controller state, control `c` and value `v`, after `update()` followed
by `set_control(c, v)`: `pressed(c)` is `v && !h` and `released(c)` is `h && !v`, where `h`
is `hold(c)` before the calls; `pressed(c)` and `released(c)` are not both true; and for
every other control `d`, `pressed(d)` and `released(d)` are false and `hold(d)` is as
before. -/
theorem update_then_set_control {n : Nat} (ctl : Controller n) (c : Fin n) (v : Bool) :
    (ctl.update.set_control c v).pressed c = (v && !ctl.hold c) ∧
    (ctl.update.set_control c v).released c = (ctl.hold c && !v) ∧
    ¬ ((ctl.update.set_control c v).pressed c = true ∧
       (ctl.update.set_control c v).released c = true) ∧
    ∀ d, d ≠ c →
      (ctl.update.set_control c v).pressed d = false ∧
      (ctl.update.set_control c v).released d = false ∧
      (ctl.update.set_control c v).hold d = ctl.hold d := by
  have hp : (ctl.update.set_control c v).pressed c = (v && !ctl.hold c) := by
    simp only [Controller.pressed, Controller.set_control, Controller.hold,
      Function.update_same, update_oldControls]
    cases v <;> cases ctl.controls c <;> rfl
  have hr : (ctl.update.set_control c v).released c = (ctl.hold c && !v) := by
    simp only [Controller.released, Controller.set_control, Controller.hold,
      Function.update_same, update_oldControls]
  refine ⟨hp, hr, ?_, ?_⟩
  · rw [hp, hr]
    cases v <;> cases ctl.hold c <;> simp
  · intro d hd
    simp only [Controller.pressed, Controller.released, Controller.set_control,
      Controller.hold, Function.update_noteq hd, update_oldControls, update_controls]
    cases ctl.controls d <;> simp

/-- Witness of C17: three controls, control `1` held and then let go; control `0` is the
other control. -/
theorem update_then_set_control_witness :
    ((Controller.mk (fun i : Fin 3 => decide (i = 1)) (fun _ => false)).update.set_control
        1 false).pressed 1
      = (false && !(Controller.mk (fun i : Fin 3 => decide (i = 1)) (fun _ => false)).hold 1) ∧
    ((Controller.mk (fun i : Fin 3 => decide (i = 1)) (fun _ => false)).update.set_control
        1 false).released 1
      = ((Controller.mk (fun i : Fin 3 => decide (i = 1)) (fun _ => false)).hold 1 && !false) ∧
    ¬ (((Controller.mk (fun i : Fin 3 => decide (i = 1)) (fun _ => false)).update.set_control
        1 false).pressed 1 = true ∧
       ((Controller.mk (fun i : Fin 3 => decide (i = 1)) (fun _ => false)).update.set_control
        1 false).released 1 = true) ∧
    ∀ d, d ≠ 1 →
      ((Controller.mk (fun i : Fin 3 => decide (i = 1)) (fun _ => false)).update.set_control
        1 false).pressed d = false ∧
      ((Controller.mk (fun i : Fin 3 => decide (i = 1)) (fun _ => false)).update.set_control
        1 false).released d = false ∧
      ((Controller.mk (fun i : Fin 3 => decide (i = 1)) (fun _ => false)).update.set_control
        1 false).hold d
        = (Controller.mk (fun i : Fin 3 => decide (i = 1)) (fun _ => false)).hold d :=
  update_then_set_control _ 1 false

/-! ## `TileMap::resize` -/

/-- C15 fails on the code: a `3 x 2` map with tiles `1 2 3 / 4 5 6` resized to width `2`,
height `3` with `fill_id = 0`. No access leaves the vector, the grid has the new
dimensions and the old cells `1 2 / 4 5` are kept, but the new third row is not filled:
`get_tile_id(0, 2)` is `5` and `get_tile_id(1, 2)` is `6`, what is left in the vector from
before the resize, where the claim has `fill_id = 0`. -/
theorem resize_narrower_taller_keeps_stale_tiles :
    TileMap.resize { tiles := [1, 2, 3, 4, 5, 6], width := 3, height := 2 } 2 3 0
      = some { tiles := [1, 2, 4, 5, 5, 6], width := 2, height := 3 } ∧
    TileMap.get_tile_id { tiles := [1, 2, 4, 5, 5, 6], width := 2, height := 3 } 0 2
      = some 5 ∧
    TileMap.get_tile_id { tiles := [1, 2, 4, 5, 5, 6], width := 2, height := 3 } 1 2
      = some 6 ∧
    to_uint32 0 = 0 := by
  decide

end SuperTux
